import Mathlib

/-!
Verification of the GSE2/CM6 low-level module (`obspy/gse2/libgse2.py`).

The Python module is shallowly embedded: pure string manipulation is
translated to functions on `List Char` / `String`, the mutable file handles
become explicit line lists or a character buffer with a position, Python
exceptions become an explicit error type, and the calls into the external C
library `gse_functions` (compression, decompression, checksum arithmetic,
second differencing) are treated as parameters or, where a claim needs their
behaviour, modelled from the specification.

Python `float` values appearing in the GSE2 header are modelled by exact
decimal values `DecVal` (an integer mantissa `m` and a decimal shift `k`,
denoting `m * 10^(-k)`).  On the finite-decimal values handled by the header
codec, IEEE double arithmetic and formatting agree with the exact decimal
semantics, and Python float equality corresponds to equality of canonical
representatives.
-/

namespace Gse2

set_option maxRecDepth 16384

/-- Python `str.strip` whitespace set (space, tab, newline, cr, vtab, ff). -/
def isPySpace (c : Char) : Bool :=
  c == ' ' || c == '\t' || c == '\n' || c == '\r' || c == Char.ofNat 11 || c == Char.ofNat 12

/-- ASCII decimal digit test. -/
def isDigitC (c : Char) : Bool :=
  '0' ≤ c && c ≤ '9'

/-- The character for a single decimal digit. -/
def dChar (n : Nat) : Char := Char.ofNat (48 + n)

/-- Numeric value of a decimal digit character. -/
def dVal (c : Char) : Nat := c.toNat - 48

/-- Value of a digit string (most significant first). -/
def parseDigits (l : List Char) : Nat :=
  l.foldl (fun a c => 10 * a + dVal c) 0

/-- Decimal rendering of a natural number, fuel-driven (fuel is an upper
bound on the number, so the recursion is structural and kernel-reducible). -/
def renderNatAux : Nat → Nat → List Char
  | 0, _ => []
  | f + 1, n => if n < 10 then [dChar n] else renderNatAux f (n / 10) ++ [dChar (n % 10)]

/-- Decimal digits of a natural number, as printed by C `printf`/Python `%d`. -/
def renderNat (n : Nat) : List Char := renderNatAux (n + 1) n

/-- Decimal rendering of an integer (minus sign for negatives). -/
def renderInt (i : Int) : List Char :=
  if i < 0 then '-' :: renderNat i.natAbs else renderNat i.natAbs

/-- Number of decimal digits of `n` (1 for 0). -/
def digitLen (n : Nat) : Nat := (renderNat n).length

/-- Left-pad with character `c` to width `w` (never truncates). -/
def padL (w : Nat) (c : Char) (l : List Char) : List Char :=
  List.replicate (w - l.length) c ++ l

/-- Right-pad with spaces to width `w` (never truncates), like `%-Ns`. -/
def padR (w : Nat) (l : List Char) : List Char :=
  l ++ List.replicate (w - l.length) ' '

/-- Drop trailing characters satisfying `p`. -/
def dropTrailing (p : Char → Bool) (l : List Char) : List Char :=
  (l.reverse.dropWhile p).reverse

/-- Python `str.strip()`. -/
def pyStrip (l : List Char) : List Char :=
  dropTrailing isPySpace (l.dropWhile isPySpace)

/-- Consume an optional leading sign; returns `true` for a minus sign. -/
def takeSign : List Char → Bool × List Char
  | '-' :: r => (true, r)
  | '+' :: r => (false, r)
  | l => (false, l)

/-- Python `int(str)`: strip whitespace, optional sign, one or more digits. -/
def pyIntO (l : List Char) : Option Int :=
  let s := pyStrip l
  let sr := takeSign s
  if sr.2.isEmpty then none
  else if sr.2.all isDigitC then
    some (if sr.1 then -(parseDigits sr.2 : Int) else (parseDigits sr.2 : Int))
  else none

/-- An exact decimal value `m * 10^(-k)`.  This models the finite-decimal
Python floats handled by the header codec.  A value is canonical when the
mantissa is not divisible by 10 (and `0` is represented as `⟨0, 0⟩`);
equality of canonical values coincides with Python float equality on this
domain. -/
structure DecVal where
  m : Int
  k : Int
deriving DecidableEq, Repr

/-- Canonicity predicate for `DecVal`. -/
def IsCanon (v : DecVal) : Prop :=
  (v.m = 0 → v.k = 0) ∧ (v.m ≠ 0 → v.m % 10 ≠ 0)

instance (v : DecVal) : Decidable (IsCanon v) := by
  unfold IsCanon; infer_instance

/-- Strip factors of ten from the mantissa (fuel-driven). -/
def canonAux : Nat → Int → Int → DecVal
  | 0, m, k => if m = 0 then ⟨0, 0⟩ else ⟨m, k⟩
  | f + 1, m, k =>
    if m = 0 then ⟨0, 0⟩
    else if m % 10 = 0 then canonAux f (m / 10) (k - 1) else ⟨m, k⟩

/-- Canonical representative of the decimal value `m * 10^(-k)`. -/
def canon (m k : Int) : DecVal := canonAux m.natAbs m k

/-- The fractional part after a decimal point, if present. -/
def pointPart : List Char → List Char × List Char
  | '.' :: t => (t.takeWhile isDigitC, t.dropWhile isDigitC)
  | l => ([], l)

/-- Exponent part of a float literal: optional sign then only digits. -/
def expPart (l : List Char) : Option Int :=
  let sr := takeSign l
  if sr.2.isEmpty then none
  else if sr.2.all isDigitC then
    some (if sr.1 then -(parseDigits sr.2 : Int) else (parseDigits sr.2 : Int))
  else none

/-- Python `float(str)` on finite decimal literals, as an exact decimal
value (canonical).  `inf`/`nan` literals and IEEE rounding are outside the
domain exercised by the header codec and are not modelled. -/
def pyFloatO (l : List Char) : Option DecVal :=
  let s := pyStrip l
  let sr := takeSign s
  let ip := sr.2.takeWhile isDigitC
  let r1 := sr.2.dropWhile isDigitC
  let fr := pointPart r1
  if ip.isEmpty && fr.1.isEmpty then none
  else
    let m0 : Int := (parseDigits ip : Int) * 10 ^ fr.1.length + (parseDigits fr.1 : Int)
    let m1 : Int := if sr.1 then -m0 else m0
    match fr.2 with
    | [] => some (canon m1 fr.1.length)
    | c :: t =>
      if c = 'e' ∨ c = 'E' then
        match expPart t with
        | some ex => some (canon m1 ((fr.1.length : Int) - ex))
        | none => none
      else none

/-- Round `a / d` to the nearest integer, ties to even (`printf` rounding
on exact decimal values). -/
def roundHEn (a d : Nat) : Nat :=
  let q := a / d
  let r := a % d
  if 2 * r < d then q
  else if d < 2 * r then q + 1
  else if q % 2 = 0 then q else q + 1

/-- The integer nearest `v * 10^d` (ties to even), as used by `printf`
fixed-point formatting of the exact decimal value `v`. -/
def scaledRound (d : Nat) (v : DecVal) : Int :=
  let t : Int := v.k - d
  if t ≤ 0 then v.m * 10 ^ (-t).toNat
  else
    if v.m < 0 then -(roundHEn v.m.natAbs (10 ^ t.toNat) : Int)
    else (roundHEn v.m.natAbs (10 ^ t.toNat) : Int)

/-- Digits of a fixed-point body: integer part, point, exactly `d`
fractional digits (no sign, no padding). -/
def fixedCore (d : Nat) (a : Nat) : List Char :=
  if d = 0 then renderNat a
  else renderNat (a / 10 ^ d) ++ '.' :: padL d '0' (renderNat (a % 10 ^ d))

/-- `printf "%w.df"` on the exact decimal value `v` (space padding). -/
def fmtFixed (w d : Nat) (v : DecVal) : List Char :=
  let aq := scaledRound d v
  if aq < 0 ∨ (v.m < 0 ∧ aq = 0) then padL w ' ' ('-' :: fixedCore d aq.natAbs)
  else padL w ' ' (fixedCore d aq.natAbs)

/-- `printf "%0w.df"` on the exact decimal value `v` (zero padding, which
goes after the minus sign). -/
def fmtFixedZ (w d : Nat) (v : DecVal) : List Char :=
  let aq := scaledRound d v
  if aq < 0 ∨ (v.m < 0 ∧ aq = 0) then '-' :: padL (w - 1) '0' (fixedCore d aq.natAbs)
  else padL w '0' (fixedCore d aq.natAbs)

/-- `printf "%10.2e"` on the exact decimal value `v`: a three-significant-
digit mantissa, a sign and a two-digit exponent, right-justified to ten
columns. -/
def fmtSci (v : DecVal) : List Char :=
  if v.m = 0 then padL 10 ' ' ('0' :: '.' :: '0' :: '0' :: 'e' :: '+' :: '0' :: '0' :: [])
  else
    let L := digitLen v.m.natAbs
    let e0 : Int := (L : Int) - 1 - v.k
    let m0 : Nat := if L ≤ 3 then v.m.natAbs * 10 ^ (3 - L) else roundHEn v.m.natAbs (10 ^ (L - 3))
    let m3 : Nat := if m0 = 1000 then 100 else m0
    let e : Int := if m0 = 1000 then e0 + 1 else e0
    let core := renderNat (m3 / 100) ++ '.' :: padL 2 '0' (renderNat (m3 % 100)) ++
      'e' :: (if e < 0 then '-' else '+') :: padL 2 '0' (renderNat e.natAbs)
    padL 10 ' ' (if v.m < 0 then '-' :: core else core)

/-- The `starttime` timestamp fields (`obspy.UTCDateTime` is external to the
module under study; it is modelled as a plain record with integer fields,
microseconds included). -/
structure HDate where
  year : Int
  month : Int
  day : Int
  hour : Int
  minute : Int
  second : Int
  microsecond : Int
deriving DecidableEq, Repr

/-- The GSE2 header dictionary produced by `readHeader` (the `gse2` sub
dictionary flattened into the `auxid`/`datatype`/`calper`/`instype`/`hang`/
`vang` fields). -/
structure Header where
  starttime : HDate
  station : String
  channel : String
  auxid : String
  datatype : String
  npts : Int
  sampling_rate : DecVal
  calib : DecVal
  calper : DecVal
  instype : String
  hang : DecVal
  vang : DecVal
deriving DecidableEq, Repr

/-- Python exceptions raised by the module (and by the builtins it calls). -/
inductive PyError where
  | eofError : PyError
  | typeError (msg : String) : PyError
  | valueError (msg : String) : PyError
  | indexError (msg : String) : PyError
  | chksumError (computed fromFile : Int) : PyError
  | gseUtiError (msg : String) : PyError
  | overflowError (msg : String) : PyError
  | assertionError (msg : String) : PyError
deriving DecidableEq, Repr

instance {ε α : Type} [DecidableEq ε] [DecidableEq α] : DecidableEq (Except ε α) := fun x y =>
  match x, y with
  | .error a, .error b =>
    if h : a = b then .isTrue (by rw [h]) else .isFalse (fun hh => h (by injection hh))
  | .ok a, .ok b =>
    if h : a = b then .isTrue (by rw [h]) else .isFalse (fun hh => h (by injection hh))
  | .error _, .ok _ => .isFalse (fun hh => by injection hh)
  | .ok _, .error _ => .isFalse (fun hh => by injection hh)

/-- Python slice `l[a:b]` on a character list (clamping, as in Python). -/
def sliceL (a b : Nat) (l : List Char) : List Char :=
  (l.drop a).take (b - a)

/-- Python `line.startswith(p)`. -/
def startsWithL (p l : List Char) : Bool :=
  l.take p.length = p

/-- `%02d` (zero padding goes after the minus sign). -/
def z2 (i : Int) : List Char :=
  if i < 0 then '-' :: padL 1 '0' (renderNat i.natAbs) else padL 2 '0' (renderNat i.natAbs)

/-- `%Nd`: right-justified, space padded. -/
def intPad (w : Nat) (i : Int) : List Char :=
  padL w ' ' (renderInt i)

/-- The seconds field `%06.3f % (second + microsecond / 1e6)` of the WID2
line, computed on the exact decimal value. -/
def secondsField (second microsecond : Int) : List Char :=
  fmtFixedZ 6 3 ⟨second * 1000000 + microsecond, 6⟩

/-- The WID2 header line written by `writeHeader` (without the final
newline): `"WID2 %4d/%02d/%02d %02d:%02d:%06.3f %-5s %-3s %-4s %-3s %8d
%11.6f %s %7.3f %-6s %5.1f %4.1f"`, where the `%s` is the calibration
pre-formatted with `%10.2e`. -/
def serializeHeader (h : Header) : List Char :=
  "WID2 ".toList ++ intPad 4 h.starttime.year ++
  '/' :: z2 h.starttime.month ++ '/' :: z2 h.starttime.day ++
  ' ' :: z2 h.starttime.hour ++ ':' :: z2 h.starttime.minute ++
  ':' :: secondsField h.starttime.second h.starttime.microsecond ++
  ' ' :: padR 5 h.station.toList ++
  ' ' :: padR 3 h.channel.toList ++
  ' ' :: padR 4 h.auxid.toList ++
  ' ' :: padR 3 h.datatype.toList ++
  ' ' :: intPad 8 h.npts ++
  ' ' :: fmtFixed 11 6 h.sampling_rate ++
  ' ' :: fmtSci h.calib ++
  ' ' :: fmtFixed 7 3 h.calper ++
  ' ' :: padR 6 h.instype.toList ++
  ' ' :: fmtFixed 5 1 h.hang ++
  ' ' :: fmtFixed 4 1 h.vang

/-- `writeHeader`: the header line written to the file (the model returns
the line; the caller appends it to the output). -/
def writeHeader (h : Header) : String :=
  String.mk (serializeHeader h)

/-- Run a numeric conversion on a fixed-column slice; a failed conversion
raises `ValueError` carrying the unconvertible text (as Python `int()` /
`float()` do). -/
def convAt {α β : Type} (conv : List Char → Option α) (l : List Char) (a b : Nat)
    (next : α → Except PyError β) : Except PyError β :=
  match conv (sliceL a b l) with
  | none => .error (.valueError (String.mk (sliceL a b l)))
  | some v => next v

/-- Parse the fixed-column fields of a WID2 line (the body of `readHeader`
after the line search).  Fields are converted in source order: the date
fields first, then station/channel/auxid/datatype (string fields, which
cannot fail), npts, sampling_rate, calib, calper, instype, hang, vang. -/
def parseWID2Line (l : List Char) : Except PyError Header :=
  convAt pyIntO l 5 9 fun year =>
  convAt pyIntO l 10 12 fun month =>
  convAt pyIntO l 13 15 fun day =>
  convAt pyIntO l 16 18 fun hour =>
  convAt pyIntO l 19 21 fun minute =>
  convAt pyIntO l 22 24 fun second =>
  convAt pyIntO l 25 28 fun msec =>
  let station := String.mk (pyStrip (sliceL 29 34 l))
  let channel := String.mk ((pyStrip (sliceL 35 38 l)).map Char.toUpper)
  let auxid := String.mk (pyStrip (sliceL 39 43 l))
  let datatype := String.mk (pyStrip (sliceL 44 48 l))
  convAt pyIntO l 48 56 fun npts =>
  convAt pyFloatO l 57 68 fun sampling_rate =>
  convAt pyFloatO l 69 79 fun calib =>
  convAt pyFloatO l 80 87 fun calper =>
  let instype := String.mk (pyStrip (sliceL 88 94 l))
  convAt pyFloatO l 95 100 fun hang =>
  convAt pyFloatO l 101 105 fun vang =>
  .ok ⟨⟨year, month, day, hour, minute, second, 1000 * msec⟩,
    station, channel, auxid, datatype, npts, sampling_rate, calib, calper,
    instype, hang, vang⟩

/-- `readHeader`: search forward for the next line starting with `WID2`
(raising `EOFError` when the file ends first) and parse it.  The input is
the list of lines still unread; the returned list is what remains unread
after the call. -/
def readHeader : List String → Except PyError Header × List String
  | [] => (.error .eofError, [])
  | line :: rest =>
    if startsWithL "WID2".toList line.toList then (parseWID2Line line.toList, rest)
    else readHeader rest

/-- Prefix sums (`y[0] = x[0]`, `y[i] = y[i-1] + x[i]`). -/
def cumsumFrom (a : Int) : List Int → List Int
  | [] => []
  | x :: t => (a + x) :: cumsumFrom (a + x) t

/-- Modelled from the spec: the C routine `rem_2nd_diff` of `gse_functions`
(not part of this repository) reverses the second-order difference
transform; per the specification it is the exact inverse of taking first
differences twice, i.e. two passes of prefix summation. -/
def rem_2nd_diff (l : List Int) : List Int := cumsumFrom 0 (cumsumFrom 0 l)

/-- First differences (`d[0] = x[0]`, `d[i] = x[i] - x[i-1]`). -/
def diffFrom (a : Int) : List Int → List Int
  | [] => []
  | x :: t => (x - a) :: diffFrom x t

/-- Modelled from the spec: the C routine `diff_2nd` of `gse_functions`
(not part of this repository) applies the second-order difference
transform `d[i] = x[i] - 2*x[i-1] + x[i-2]`, i.e. first differences taken
twice.  Its output feeds only the external compressor. -/
def diff_2nd (l : List Int) : List Int := diffFrom 0 (diffFrom 0 l)

/-- `uncompress_CM6`: read `n_samps` samples of CM6 data.  The external C
routine `decomp_6b_buffer` is not part of this repository; the model takes
its observable behaviour as parameters: `decompReport` is the sample count
it returns, `rawBuf` the buffer contents it leaves behind, and `linesUsed`
the number of lines it pulled through the `read83` callback (the callback
only ever reads forward, line by line).  The Python code raises
`GSEUtiError` whenever the reported count differs from `n_samps`, and for
`n_samps == 0` returns an empty array without touching the library or the
stream.  The pair returned is (result, lines still unread). -/
def uncompress_CM6 (ls : List String) (n_samps : Int) (decompReport : Int)
    (rawBuf : List Int) (linesUsed : Nat) : Except PyError (List Int) × List String :=
  if n_samps = 0 then (.ok [], ls)
  else if n_samps < 0 then (.error (.valueError "negative dimensions are not allowed"), ls)
  else if decompReport ≠ n_samps then
    (.error (.gseUtiError "Mismatching length in lib.decomp_6b"), ls.drop linesUsed)
  else (.ok (rem_2nd_diff rawBuf), ls.drop linesUsed)

/-- Result of `verifyChecksum`: success is either silent or accompanied by
the non-fatal legacy sign warning. -/
inductive VerifyOutcome where
  | silent : VerifyOutcome
  | warned : VerifyOutcome
deriving DecidableEq, Repr

/-- Python `str.split()` (split on whitespace runs), fuel-driven. -/
def splitWsAux : Nat → List Char → List (List Char)
  | 0, _ => []
  | f + 1, l =>
    match l.dropWhile isPySpace with
    | [] => []
    | c :: t => (c :: t.takeWhile (fun d => ! isPySpace d)) ::
        splitWsAux f (t.dropWhile (fun d => ! isPySpace d))

/-- Python `str.split()`. -/
def splitWs (l : List Char) : List (List Char) := splitWsAux l.length l

/-- `int(buf.strip().split()[1])` on a checksum line: indexing raises
`IndexError` when there is no second token, `int` raises `ValueError` on a
non-numeric token. -/
def chkParse (line : List Char) : Except PyError Int :=
  match splitWs (pyStrip line) with
  | _ :: tok :: _ =>
    match pyIntO tok with
    | some i => .ok i
    | none => .error (.valueError (String.mk tok))
  | _ => .error (.indexError "list index out of range")

/-- Scan forward for the first line starting with `tok`; returns it (if
any) and the lines remaining unread after the scan. -/
def scanCHK (tok : List Char) : List String → Option String × List String
  | [] => (none, [])
  | l :: rest => if startsWithL tok l.toList then (some l, rest) else scanCHK tok rest

/-- The comparison at the end of `verifyChecksum`: equal values pass
silently; equal absolute values with different signs warn (legacy sign
bug) and pass; anything else raises `ChksumError` carrying both values. -/
def compareChk (chksum_data chksum_file : Int) : Except PyError VerifyOutcome :=
  if chksum_data ≠ chksum_file then
    if chksum_data.natAbs = chksum_file.natAbs then .ok .warned
    else .error (.chksumError chksum_data chksum_file)
  else .ok .silent

/-- `verifyChecksum`: the checksum of the decoded data is computed by the
external C routine `check_sum` (not part of this repository) and is taken
here as the parameter `chksum_data`.  The file is scanned forward for a
`CHK<version>` line; a missing line means a file checksum of 0.  The pair
returned is (result, lines still unread). -/
def verifyChecksum (chksum_data : Int) (version : Nat) (ls : List String) :
    Except PyError VerifyOutcome × List String :=
  let tok := "CHK".toList ++ renderNat version
  match scanCHK tok ls with
  | (none, rest) => (compareChk chksum_data 0, rest)
  | (some line, rest) =>
    match chkParse line.toList with
    | .error e => (.error e, rest)
    | .ok fil => (compareChk chksum_data fil, rest)

/-- The optional `gse2` sub-dictionary of a header passed to `write`
(missing keys are `none`). -/
structure Gse2Opt where
  auxid : Option String
  datatype : Option String
  calper : Option DecVal
  instype : Option String
  hang : Option DecVal
  vang : Option DecVal
deriving DecidableEq, Repr

/-- The header dictionary passed to `write`.  The fields `write` reads
unconditionally (`starttime`, `station`, `channel`, `npts`,
`sampling_rate`) are required; `calib` and the `gse2` sub-dictionary are
optional and get defaults inserted by `write`. -/
structure HeadDict where
  starttime : HDate
  station : String
  channel : String
  npts : Int
  sampling_rate : DecVal
  calib : Option DecVal
  gse2 : Option Gse2Opt
deriving DecidableEq, Repr

/-- A `gse2` sub-dictionary with no keys. -/
def emptyGse2 : Gse2Opt := ⟨none, none, none, none, none, none⟩

/-- The `setdefault` calls of `write` on the `gse2` sub-dictionary. -/
def fillGse2 (g : Gse2Opt) : Gse2Opt :=
  ⟨some (g.auxid.getD ""), some (g.datatype.getD "CM6"), some (g.calper.getD ⟨1, 0⟩),
   some (g.instype.getD ""), some (g.hang.getD ⟨-1, 0⟩), some (g.vang.getD ⟨-1, 0⟩)⟩

/-- The header dictionary as mutated by `write`'s `setdefault` block. -/
def optFill (d : HeadDict) : HeadDict :=
  ⟨d.starttime, d.station, d.channel, d.npts, d.sampling_rate,
   some (d.calib.getD ⟨1, 0⟩), some (fillGse2 (d.gse2.getD emptyGse2))⟩

/-- The complete header record obtained after `write`'s `setdefault`
block, as consumed by `writeHeader`. -/
def fillDefaults (d : HeadDict) : Header :=
  let g := fillGse2 (d.gse2.getD emptyGse2)
  ⟨d.starttime, d.station, d.channel, g.auxid.getD "", g.datatype.getD "CM6", d.npts,
   d.sampling_rate, d.calib.getD ⟨1, 0⟩, g.calper.getD ⟨1, 0⟩, g.instype.getD "",
   g.hang.getD ⟨-1, 0⟩, g.vang.getD ⟨-1, 0⟩⟩

/-- `numpy.ndarray.max()`: `None` (a `ValueError`) on an empty array. -/
def npMax : List Int → Option Int
  | [] => none
  | x :: t => some (t.foldl max x)

/-- Trailing NUL bytes as stripped by numpy when reading an `|S80`
element. -/
def stripTrailingNulls (l : List Char) : List Char :=
  dropTrailing (fun c => c == Char.ofNat 0) l

/-- Result of a `write` call: the error raised (if any), the lines written
to the sink before the error, the caller's header dictionary after the
call (Python dictionaries are mutated in place), and the module-level
`count` global after the call. -/
structure WriteResult where
  err : Option PyError
  out : List String
  headdictAfter : HeadDict
  countAfter : Nat
deriving DecidableEq, Repr

/-- numpy's message for `max()` of an empty array. -/
def npMaxEmptyMsg : String :=
  "zero-size array to reduction operation maximum which has no identity"

/-- The message of the write-side overflow guard. -/
def overflowMsg : String := "Compression Error, data must be less equal 2^26"

/-- numpy's message for an `|S80` view of a slice whose byte length is not
a multiple of 80. -/
def viewMsg : String := "new type not compatible with array."

/-- `write`: compute the checksum (external `check_sum`, parameter
`chksum`), guard `data.max() > 2**26` (a `ValueError` on empty data, an
`OverflowError` past the guard), second-difference and compress (external
`compress_6b_buffer`; its emitted bytes are the parameter `compressed` and
its status the parameter `ierr`; the bytes land in the `n*4` byte scratch
array `carr` through a callback that writes at the module-level global
`count` and increments it, so an encoding longer than `n*4` raises
`IndexError`), insert header defaults, then emit the header line, `DAT2`,
the `|S80` rows of `carr[:(count//80+1)*80]` (numpy strips each row's
trailing NULs; a slice length not divisible by 80 raises `ValueError`
after `DAT2` is already written), and `CHK2 %8ld` plus a blank line.
`countBefore` is the module-level `count` before the call; the `inplace`
flag only selects whether the external transform works on a copy, which
has no further observable effect here. -/
def write (headdict : HeadDict) (data : List Int) (inplace : Bool)
    (chksum : Int) (compressed : List Char) (ierr : Int) (countBefore : Nat) : WriteResult :=
  let n := data.length
  match npMax data with
  | none => ⟨some (.valueError npMaxEmptyMsg), [], headdict, countBefore⟩
  | some mx =>
    if 2 ^ 26 < mx then ⟨some (.overflowError overflowMsg), [], headdict, countBefore⟩
    else if 4 * n < compressed.length then
      ⟨some (.indexError "index out of bounds"), [], headdict, 4 * n⟩
    else
      let cnt := compressed.length
      if ierr ≠ 0 then
        ⟨some (.assertionError (String.mk
          ("Error status after compression is NOT 0 but ".toList ++ renderInt ierr))),
         [], headdict, cnt⟩
      else
        let hd1 := optFill headdict
        let headerLine := writeHeader (fillDefaults headdict)
        let carr := compressed ++ List.replicate (4 * n - cnt) (Char.ofNat 0)
        let sliceLen := min ((cnt / 80 + 1) * 80) (4 * n)
        if sliceLen % 80 ≠ 0 then
          ⟨some (.valueError viewMsg), [headerLine, "DAT2"], hd1, cnt⟩
        else
          let dataLines := (List.range (sliceLen / 80)).map
            (fun i => String.mk (stripTrailingNulls (sliceL (80 * i) (80 * i + 80) carr)))
          let chkLine := String.mk ("CHK2 ".toList ++ padL 8 ' ' (renderInt chksum))
          ⟨none, [headerLine, "DAT2"] ++ dataLines ++ [chkLine, ""], hd1, cnt⟩

/-- A file opened for reading, at character granularity. -/
structure CFile where
  content : List Char
  pos : Nat
deriving DecidableEq, Repr

/-- `f.read(n)`: the next `n` characters (fewer at end of file); the
position advances accordingly. -/
def fileRead (f : CFile) (n : Nat) : List Char × CFile :=
  ((f.content.drop f.pos).take n, ⟨f.content, min (f.pos + n) f.content.length⟩)

/-- `f.seek(p)`. -/
def fileSeek (f : CFile) (p : Nat) : CFile := ⟨f.content, p⟩

/-- Result of `isGse2`: the error (if any), the file afterwards, and the
sequence of stream positions the call moved through. -/
structure SniffResult where
  err : Option PyError
  file : CFile
  posTrace : List Nat
deriving DecidableEq, Repr

/-- `isGse2`: remember the position, read 4 bytes, seek back, then check
the 4 bytes spell `WID2` (raising `TypeError` otherwise). -/
def isGse2 (f : CFile) : SniffResult :=
  let pos := f.pos
  let rd := fileRead f 4
  let f2 := fileSeek rd.2 pos
  let trace := [pos, rd.2.pos, f2.pos]
  if rd.1 = "WID2".toList then ⟨none, f2, trace⟩
  else ⟨some (.typeError "File is not in GSE2 format"), f2, trace⟩

/-- A string field that fits its column width and carries no leading or
trailing whitespace (so fixed-width padding and `strip` are inverse). -/
def strOK (s : String) (w : Nat) : Prop :=
  s.toList.length ≤ w ∧ pyStrip s.toList = s.toList

/-- A string that is unchanged by upper-casing. -/
def upperOK (s : String) : Prop :=
  s.toList.map Char.toUpper = s.toList

/-- A decimal value exactly representable with `d` fractional digits (in
canonical form). -/
def fixedOK (v : DecVal) (d : Nat) : Prop :=
  IsCanon v ∧ v.k ≤ (d : Int)

/-- The integer `v * 10^d` of a value representable at `d` decimals. -/
def scaled (v : DecVal) (d : Nat) : Int :=
  v.m * 10 ^ ((d : Int) - v.k).toNat

/-- A decimal value exactly representable in scientific notation with three
significant digits and a two-digit exponent (the `%10.2e` format). -/
def sciOK (v : DecVal) : Prop :=
  IsCanon v ∧ (v.m = 0 ∨ (digitLen v.m.natAbs ≤ 3 ∧
    -99 ≤ (digitLen v.m.natAbs : Int) - 1 - v.k ∧ (digitLen v.m.natAbs : Int) - 1 - v.k ≤ 99))

/-- The three-digit mantissa `%10.2e` prints for a value with at most
three significant digits (the rounding in `fmtSci` is then exact). -/
def sciMant (v : DecVal) : Nat := v.m.natAbs * 10 ^ (3 - digitLen v.m.natAbs)

/-- The exponent `%10.2e` prints for a nonzero value. -/
def sciExpVal (v : DecVal) : Int := (digitLen v.m.natAbs : Int) - 1 - v.k

/-- Validity of a header record for exact round-tripping: every string
field fits its width and is stripped, the channel is upper-case, every
date field fits its column (with whole milliseconds), and every decimal
field is exactly representable at the precision its column carries and
fits the column width. -/
def ValidHeader (h : Header) : Prop :=
  0 ≤ h.starttime.year ∧ h.starttime.year ≤ 9999 ∧
  0 ≤ h.starttime.month ∧ h.starttime.month ≤ 99 ∧
  0 ≤ h.starttime.day ∧ h.starttime.day ≤ 99 ∧
  0 ≤ h.starttime.hour ∧ h.starttime.hour ≤ 99 ∧
  0 ≤ h.starttime.minute ∧ h.starttime.minute ≤ 99 ∧
  0 ≤ h.starttime.second ∧ h.starttime.second ≤ 99 ∧
  0 ≤ h.starttime.microsecond ∧ h.starttime.microsecond < 1000000 ∧
  h.starttime.microsecond % 1000 = 0 ∧
  strOK h.station 5 ∧ strOK h.channel 3 ∧ upperOK h.channel ∧
  strOK h.auxid 4 ∧ strOK h.datatype 3 ∧ strOK h.instype 6 ∧
  0 ≤ h.npts ∧ h.npts ≤ 99999999 ∧
  fixedOK h.sampling_rate 6 ∧ 0 ≤ h.sampling_rate.m ∧ scaled h.sampling_rate 6 < 10 ^ 10 ∧
  sciOK h.calib ∧
  fixedOK h.calper 3 ∧ -(10 ^ 5) < scaled h.calper 3 ∧ scaled h.calper 3 < 10 ^ 6 ∧
  fixedOK h.hang 1 ∧ -(10 ^ 3) < scaled h.hang 1 ∧ scaled h.hang 1 < 10 ^ 4 ∧
  fixedOK h.vang 1 ∧ -(10 ^ 2) < scaled h.vang 1 ∧ scaled h.vang 1 < 10 ^ 3

instance (h : Header) : Decidable (ValidHeader h) := by
  unfold ValidHeader strOK upperOK fixedOK sciOK scaled
  infer_instance

instance (s : String) (w : Nat) : Decidable (strOK s w) := by
  unfold strOK
  infer_instance

/-- Bool test: does `needle` occur as a contiguous substring of `hay`? -/
def containsSub (needle hay : List Char) : Bool :=
  (List.range (hay.length + 1)).any (fun i => startsWithL needle (hay.drop i))

/-- Some fixed-column numeric field of the line fails its conversion. -/
def hasBadNumericField (l : List Char) : Prop :=
  pyIntO (sliceL 5 9 l) = none ∨ pyIntO (sliceL 10 12 l) = none ∨
  pyIntO (sliceL 13 15 l) = none ∨ pyIntO (sliceL 16 18 l) = none ∨
  pyIntO (sliceL 19 21 l) = none ∨ pyIntO (sliceL 22 24 l) = none ∨
  pyIntO (sliceL 25 28 l) = none ∨ pyIntO (sliceL 48 56 l) = none ∨
  pyFloatO (sliceL 57 68 l) = none ∨ pyFloatO (sliceL 69 79 l) = none ∨
  pyFloatO (sliceL 80 87 l) = none ∨ pyFloatO (sliceL 95 100 l) = none ∨
  pyFloatO (sliceL 101 105 l) = none

instance (l : List Char) : Decidable (hasBadNumericField l) := by
  unfold hasBadNumericField
  infer_instance

/-- A concrete header dictionary (required fields only). -/
def hdEx : HeadDict :=
  ⟨⟨2009, 5, 18, 6, 47, 20, 255000⟩, "RNHA", "EHN", 750, ⟨2, -2⟩, none, none⟩

/-- A concrete sample buffer whose only nonzero element is a negative value
of magnitude greater than `2^26`. -/
def dataNeg : List Int := (-(2 ^ 26 + 1)) :: List.replicate 39 0

/-- A concrete header record matching the documented example file. -/
def hdrEx : Header :=
  ⟨⟨2009, 5, 18, 6, 47, 20, 255000⟩, "RNHA", "EHN", "", "CM6", 750,
   ⟨2, -2⟩, ⟨949, 4⟩, ⟨1, 0⟩, "M24", ⟨-1, 0⟩, ⟨0, 0⟩⟩

/-- The same header with 255400 microseconds (not a whole millisecond). -/
def hdrMicro : Header :=
  ⟨⟨2009, 5, 18, 6, 47, 20, 255400⟩, "RNHA", "EHN", "", "CM6", 750,
   ⟨2, -2⟩, ⟨949, 4⟩, ⟨1, 0⟩, "M24", ⟨-1, 0⟩, ⟨0, 0⟩⟩

/-- A WID2 line whose year column holds non-numeric text. -/
def badLine : String :=
  "WID2 XXXX/05/18 06:47:20.255 RNHA  EHN      CM6      750  200.000000   9.49e-02   1.000 M24     -1.0  0.0"

/-! ### Digit rendering and parsing -/

theorem dVal_dChar {n : Nat} (h : n < 10) : dVal (dChar n) = n := by
  interval_cases n <;> rfl

theorem isDigitC_dChar {n : Nat} (h : n < 10) : isDigitC (dChar n) = true := by
  interval_cases n <;> rfl

theorem not_space_dChar {n : Nat} (h : n < 10) : isPySpace (dChar n) = false := by
  interval_cases n <;> rfl

theorem dChar_ne_nul {n : Nat} (h : n < 10) : dChar n ≠ Char.ofNat 0 := by
  interval_cases n <;> decide

theorem parseDigits_append_singleton (A : List Char) (c : Char) :
    parseDigits (A ++ [c]) = 10 * parseDigits A + dVal c := by
  simp [parseDigits, List.foldl_append]

theorem renderNatAux_spec {f n : Nat} (h : n < f) :
    parseDigits (renderNatAux f n) = n ∧ renderNatAux f n ≠ [] ∧
    (∀ c ∈ renderNatAux f n, isDigitC c = true) := by
  induction f generalizing n with
  | zero => omega
  | succ f ih =>
    by_cases hn : n < 10
    · refine ⟨?_, by simp [renderNatAux, hn], ?_⟩
      · simp [renderNatAux, hn, parseDigits, dVal_dChar hn]
      · simp only [renderNatAux, if_pos hn, List.mem_singleton]
        rintro c rfl; exact isDigitC_dChar hn
    · have hd : n / 10 < f := lt_of_lt_of_le (Nat.div_lt_self (by omega) (by omega)) (by omega)
      obtain ⟨ih1, _, ih3⟩ := ih hd
      refine ⟨?_, by simp [renderNatAux, hn], ?_⟩
      · rw [renderNatAux, if_neg hn, parseDigits_append_singleton, ih1,
          dVal_dChar (Nat.mod_lt _ (by omega))]
        omega
      · simp only [renderNatAux, if_neg hn, List.mem_append, List.mem_singleton]
        rintro c (hc | rfl)
        · exact ih3 c hc
        · exact isDigitC_dChar (Nat.mod_lt _ (by omega))

theorem parseDigits_renderNat (n : Nat) : parseDigits (renderNat n) = n :=
  (renderNatAux_spec (Nat.lt_succ_self n)).1

theorem renderNat_ne_nil (n : Nat) : renderNat n ≠ [] :=
  (renderNatAux_spec (Nat.lt_succ_self n)).2.1

theorem renderNat_all_digits (n : Nat) : ∀ c ∈ renderNat n, isDigitC c = true :=
  (renderNatAux_spec (Nat.lt_succ_self n)).2.2

theorem renderNatAux_length_le {f n w : Nat} (h : n < f) (hw : 1 ≤ w) (hn : n < 10 ^ w) :
    (renderNatAux f n).length ≤ w := by
  induction f generalizing n w with
  | zero => omega
  | succ f ih =>
    by_cases h10 : n < 10
    · simpa [renderNatAux, h10] using hw
    · have hd : n / 10 < f := lt_of_lt_of_le (Nat.div_lt_self (by omega) (by omega)) (by omega)
      have hw2 : 2 ≤ w := by
        by_contra hc
        interval_cases w <;> omega
      have hq : n / 10 < 10 ^ (w - 1) := by
        have : 10 ^ w = 10 * 10 ^ (w - 1) := by
          rw [← pow_succ']
          congr 1
          omega
        omega
      have := ih hd (by omega) hq
      simp only [renderNatAux, if_neg h10, List.length_append, List.length_singleton]
      omega

theorem renderNat_length_le {n w : Nat} (hw : 1 ≤ w) (hn : n < 10 ^ w) :
    (renderNat n).length ≤ w :=
  renderNatAux_length_le (Nat.lt_succ_self n) hw hn

theorem renderNatAux_lt_pow {f n : Nat} (h : n < f) :
    n < 10 ^ (renderNatAux f n).length := by
  induction f generalizing n with
  | zero => omega
  | succ f ih =>
    by_cases h10 : n < 10
    · simpa [renderNatAux, h10] using h10
    · have hd : n / 10 < f := lt_of_lt_of_le (Nat.div_lt_self (by omega) (by omega)) (by omega)
      have := ih hd
      simp only [renderNatAux, if_neg h10, List.length_append, List.length_singleton]
      have h1 : n < 10 * (n / 10 + 1) := by omega
      calc n < 10 * (n / 10 + 1) := h1
        _ ≤ 10 * 10 ^ (renderNatAux f (n / 10)).length := by
            have : n / 10 + 1 ≤ 10 ^ (renderNatAux f (n / 10)).length := this
            omega
        _ = 10 ^ ((renderNatAux f (n / 10)).length + 1) := by rw [pow_succ']

theorem renderNatAux_pow_le {f n : Nat} (h : n < f) (hn : 1 ≤ n) :
    10 ^ ((renderNatAux f n).length - 1) ≤ n := by
  induction f generalizing n with
  | zero => omega
  | succ f ih =>
    by_cases h10 : n < 10
    · simp [renderNatAux, h10]
      omega
    · have hd : n / 10 < f := lt_of_lt_of_le (Nat.div_lt_self (by omega) (by omega)) (by omega)
      have hq1 : 1 ≤ n / 10 := by omega
      have := ih hd hq1
      simp only [renderNatAux, if_neg h10, List.length_append, List.length_singleton]
      have hlen : 1 ≤ (renderNatAux f (n / 10)).length :=
        List.length_pos.mpr (renderNatAux_spec hd).2.1
      have : 10 ^ ((renderNatAux f (n / 10)).length - 1 + 1) ≤ 10 * (n / 10) := by
        rw [pow_succ']
        omega
      calc 10 ^ ((renderNatAux f (n / 10)).length + 1 - 1)
          = 10 ^ ((renderNatAux f (n / 10)).length - 1 + 1) := by congr 1; omega
        _ ≤ 10 * (n / 10) := this
        _ ≤ n := by omega

theorem digitLen_le {n w : Nat} (hw : 1 ≤ w) (hn : n < 10 ^ w) : digitLen n ≤ w :=
  renderNat_length_le hw hn

theorem lt_pow_digitLen (n : Nat) : n < 10 ^ digitLen n :=
  renderNatAux_lt_pow (Nat.lt_succ_self n)

theorem pow_digitLen_le {n : Nat} (hn : 1 ≤ n) : 10 ^ (digitLen n - 1) ≤ n :=
  renderNatAux_pow_le (Nat.lt_succ_self n) hn

theorem digitLen_pos (n : Nat) : 1 ≤ digitLen n :=
  List.length_pos.mpr (renderNat_ne_nil n)

theorem parseDigits_replicate_zero (k : Nat) (l : List Char) :
    parseDigits (List.replicate k '0' ++ l) = parseDigits l := by
  induction k with
  | zero => rfl
  | succ k ih =>
    simp only [List.replicate_succ, List.cons_append, parseDigits, List.foldl_cons]
    simpa [parseDigits, dVal] using ih

theorem parseDigits_padL_zero (d : Nat) (l : List Char) :
    parseDigits (padL d '0' l) = parseDigits l :=
  parseDigits_replicate_zero _ _

/-! ### Character classes and stripping -/

theorem digit_not_space {c : Char} (h : isDigitC c = true) : isPySpace c = false := by
  simp only [isDigitC, Bool.and_eq_true, decide_eq_true_eq] at h
  obtain ⟨h1, _⟩ := h
  simp only [isPySpace, Bool.or_eq_false_iff, beq_eq_false_iff_ne, ne_eq]
  refine ⟨⟨⟨⟨⟨?_, ?_⟩, ?_⟩, ?_⟩, ?_⟩, ?_⟩ <;> (rintro rfl; revert h1; decide)

theorem digit_ne_minus {c : Char} (h : isDigitC c = true) : c ≠ '-' := by
  simp only [isDigitC, Bool.and_eq_true, decide_eq_true_eq] at h
  obtain ⟨h1, _⟩ := h
  rintro rfl; revert h1; decide

theorem digit_ne_plus {c : Char} (h : isDigitC c = true) : c ≠ '+' := by
  simp only [isDigitC, Bool.and_eq_true, decide_eq_true_eq] at h
  obtain ⟨h1, _⟩ := h
  rintro rfl; revert h1; decide

theorem digit_ne_dot {c : Char} (h : isDigitC c = true) : c ≠ '.' := by
  simp only [isDigitC, Bool.and_eq_true, decide_eq_true_eq] at h
  obtain ⟨h1, _⟩ := h
  rintro rfl; revert h1; decide

theorem digit_ne_nul {c : Char} (h : isDigitC c = true) : ¬ (c == Char.ofNat 0) = true := by
  simp only [isDigitC, Bool.and_eq_true, decide_eq_true_eq] at h
  obtain ⟨h1, _⟩ := h
  simp only [beq_iff_eq]
  rintro rfl; revert h1; decide

theorem dropWhile_of_head_false {p : Char → Bool} {l : List Char}
    (h : ∀ c ∈ l, p c = false) : l.dropWhile p = l := by
  cases l with
  | nil => rfl
  | cons c t => rw [List.dropWhile_cons_of_neg (by simp [h c (by simp)])]

theorem dropWhile_replicate_append {p : Char → Bool} {c : Char} (hp : p c = true)
    (k : Nat) (l : List Char) :
    (List.replicate k c ++ l).dropWhile p = l.dropWhile p := by
  induction k with
  | zero => rfl
  | succ k ih => simpa [List.replicate_succ, List.dropWhile_cons_of_pos hp] using ih

theorem dropTrailing_append_replicate {p : Char → Bool} {c : Char} (hp : p c = true)
    (k : Nat) (l : List Char) :
    dropTrailing p (l ++ List.replicate k c) = dropTrailing p l := by
  unfold dropTrailing
  rw [List.reverse_append, List.reverse_replicate, dropWhile_replicate_append hp]

theorem dropTrailing_eq_self {p : Char → Bool} {l : List Char}
    (h : ∀ c ∈ l, p c = false) : dropTrailing p l = l := by
  unfold dropTrailing
  rw [dropWhile_of_head_false (by intro c hc; exact h c (List.mem_reverse.mp hc)),
    List.reverse_reverse]

theorem pyStrip_eq_self {l : List Char} (h : ∀ c ∈ l, isPySpace c = false) :
    pyStrip l = l := by
  unfold pyStrip
  rw [dropWhile_of_head_false h, dropTrailing_eq_self h]

theorem pyStrip_spaces_left (k : Nat) (l : List Char) :
    pyStrip (List.replicate k ' ' ++ l) = pyStrip l := by
  unfold pyStrip
  rw [dropWhile_replicate_append rfl]

theorem dropWhile_replicate_self {p : Char → Bool} {c : Char} (hp : p c = true) (k : Nat) :
    (List.replicate k c).dropWhile p = [] := by
  have := dropWhile_replicate_append hp k []
  simpa using this

theorem pyStrip_spaces_right (k : Nat) (l : List Char) :
    pyStrip (l ++ List.replicate k ' ') = pyStrip l := by
  unfold pyStrip
  rw [List.dropWhile_append]
  by_cases he : (l.dropWhile isPySpace).isEmpty
  · rw [if_pos he, dropWhile_replicate_self rfl, List.isEmpty_iff.mp he]
  · rw [if_neg he, dropTrailing_append_replicate rfl]

theorem pyStrip_padR {l : List Char} (w : Nat) (h : pyStrip l = l) :
    pyStrip (padR w l) = l := by
  unfold padR
  rw [pyStrip_spaces_right, h]

/-! ### takeSign and integer parsing -/

theorem takeSign_cons_of_ne {c : Char} {t : List Char} (h1 : c ≠ '-') (h2 : c ≠ '+') :
    takeSign (c :: t) = (false, c :: t) := by
  rw [takeSign.eq_def]
  split <;> simp_all

theorem takeSign_of_digit_head {c : Char} {t : List Char} (h : isDigitC c = true) :
    takeSign (c :: t) = (false, c :: t) :=
  takeSign_cons_of_ne (digit_ne_minus h) (digit_ne_plus h)

theorem pyIntO_digits {l : List Char} (h : ∀ c ∈ l, isDigitC c = true) (hne : l ≠ []) :
    pyIntO l = some (parseDigits l : Int) := by
  obtain ⟨c, t, rfl⟩ := List.exists_cons_of_ne_nil hne
  have hs : pyStrip (c :: t) = c :: t :=
    pyStrip_eq_self (fun d hd => digit_not_space (h d hd))
  have hts : takeSign (c :: t) = (false, c :: t) := takeSign_of_digit_head (h c (by simp))
  simp only [pyIntO, hs, hts]
  rw [if_neg (by simp), if_pos (by
    simp only [List.all_eq_true]
    intro d hd; exact h d hd)]
  simp

theorem pyIntO_padL_zero (w n : Nat) : pyIntO (padL w '0' (renderNat n)) = some (n : Int) := by
  have hall : ∀ c ∈ padL w '0' (renderNat n), isDigitC c = true := by
    intro c hc
    rcases List.mem_append.mp hc with hc | hc
    · rcases List.eq_of_mem_replicate hc with rfl; rfl
    · exact renderNat_all_digits n c hc
  rw [pyIntO_digits hall (by
      simp only [padL, ne_eq, List.append_eq_nil, not_and]
      intro _; exact renderNat_ne_nil n),
    parseDigits_padL_zero, parseDigits_renderNat]

theorem renderInt_no_space (i : Int) : ∀ c ∈ renderInt i, isPySpace c = false := by
  intro c hc
  unfold renderInt at hc
  split at hc
  · rcases List.mem_cons.mp hc with rfl | hc
    · rfl
    · exact digit_not_space (renderNat_all_digits _ c hc)
  · exact digit_not_space (renderNat_all_digits _ c hc)

theorem pyIntO_renderInt (i : Int) : pyIntO (renderInt i) = some i := by
  by_cases hi : i < 0
  · have hr : renderInt i = '-' :: renderNat i.natAbs := by simp [renderInt, hi]
    have hs : pyStrip ('-' :: renderNat i.natAbs) = '-' :: renderNat i.natAbs := by
      rw [← hr]; exact pyStrip_eq_self (renderInt_no_space i)
    have hts : takeSign ('-' :: renderNat i.natAbs) = (true, renderNat i.natAbs) := rfl
    simp only [pyIntO, hr, hs, hts]
    rw [if_neg (by simp [renderNat_ne_nil]), if_pos (by
      simp only [List.all_eq_true]
      intro c hc; exact renderNat_all_digits _ c hc)]
    rw [parseDigits_renderNat]
    simp only [if_true, Option.some.injEq]
    omega
  · have hr : renderInt i = renderNat i.natAbs := by simp [renderInt, hi]
    obtain ⟨c, t, he⟩ := List.exists_cons_of_ne_nil (renderNat_ne_nil i.natAbs)
    have hs : pyStrip (renderNat i.natAbs) = renderNat i.natAbs := by
      rw [← hr]; exact pyStrip_eq_self (renderInt_no_space i)
    have hts : takeSign (renderNat i.natAbs) = (false, renderNat i.natAbs) := by
      rw [he]
      exact takeSign_of_digit_head (renderNat_all_digits _ c (by rw [he]; simp))
    simp only [pyIntO, hr, hs, hts]
    rw [if_neg (by simp [he]), if_pos (by
      simp only [List.all_eq_true]
      intro d hd; exact renderNat_all_digits _ d hd)]
    rw [parseDigits_renderNat]
    simp only [Bool.false_eq_true, if_false, Option.some.injEq]
    omega

theorem pyIntO_padL_space_renderInt (w : Nat) (i : Int) :
    pyIntO (padL w ' ' (renderInt i)) = some i := by
  have hs : pyStrip (padL w ' ' (renderInt i)) = pyStrip (renderInt i) :=
    pyStrip_spaces_left _ _
  have := pyIntO_renderInt i
  simp only [pyIntO, hs] at this ⊢
  exact this

/-! ### Canonical decimal values -/

theorem canonAux_zero (f : Nat) (k : Int) : canonAux f 0 k = ⟨0, 0⟩ := by
  cases f <;> simp [canonAux]

theorem canonAux_fuel {f g : Nat} {m k : Int} (hf : m.natAbs ≤ f) (hg : m.natAbs ≤ g) :
    canonAux f m k = canonAux g m k := by
  induction f generalizing g m k with
  | zero =>
    have : m = 0 := by omega
    subst this
    rw [canonAux_zero, canonAux_zero]
  | succ f ih =>
    by_cases hm : m = 0
    · subst hm; rw [canonAux_zero, canonAux_zero]
    · cases g with
      | zero => omega
      | succ g =>
        by_cases hd : m % 10 = 0
        · obtain ⟨c, rfl⟩ : (10 : Int) ∣ m := Int.dvd_of_emod_eq_zero hd
          have hc0 : c ≠ 0 := by rintro rfl; simp at hm
          have habs : (10 * c).natAbs = 10 * c.natAbs := by
            rw [Int.natAbs_mul]; rfl
          have hq : (10 * c) / 10 = c := by
            rw [Int.mul_ediv_cancel_left _ (by norm_num)]
          simp only [canonAux, if_neg hm, if_pos hd, hq]
          exact ih (by omega) (by omega)
        · simp [canonAux, hm, hd]

theorem canon_mul_ten (m k : Int) : canon (m * 10) (k + 1) = canon m k := by
  by_cases hm : m = 0
  · subst hm; simp only [zero_mul]; unfold canon; rw [canonAux_zero, canonAux_zero]
  · unfold canon
    have habs : (m * 10).natAbs = 10 * m.natAbs := by rw [Int.natAbs_mul]; ring
    have hpos : 1 ≤ m.natAbs := by
      have := Int.natAbs_pos.mpr hm
      omega
    have hfe : (m * 10).natAbs = (10 * m.natAbs - 1) + 1 := by omega
    rw [hfe]
    have hm10 : m * 10 ≠ 0 := by
      intro h
      rcases mul_eq_zero.mp h with h | h
      · exact hm h
      · norm_num at h
    have hmod : (m * 10) % 10 = 0 := by omega
    simp only [canonAux, if_neg hm10, if_pos hmod]
    rw [Int.mul_ediv_cancel _ (by norm_num : (10 : Int) ≠ 0),
      show k + 1 - 1 = k from by ring]
    exact canonAux_fuel (by omega) (le_refl _)

theorem canon_self {v : DecVal} (h : IsCanon v) : canon v.m v.k = v := by
  obtain ⟨m, k⟩ := v
  obtain ⟨h1, h2⟩ := h
  by_cases hm : m = 0
  · subst hm
    have hk : k = 0 := h1 rfl
    subst hk
    unfold canon
    rw [canonAux_zero]
  · have hpos : 1 ≤ m.natAbs := by
      have := Int.natAbs_pos.mpr hm
      omega
    unfold canon
    rw [show m.natAbs = (m.natAbs - 1) + 1 from by omega]
    simp [canonAux, hm, h2 hm]

/-! ### Stripping at the ends only -/

theorem dropWhile_eq_self_of_head {p : Char → Bool} {l : List Char}
    (h : ∀ c, l.head? = some c → p c = false) : l.dropWhile p = l := by
  cases l with
  | nil => rfl
  | cons c t => rw [List.dropWhile_cons_of_neg (by simp [h c rfl])]

theorem dropTrailing_eq_self_of_getLast {p : Char → Bool} {l : List Char}
    (h : ∀ c, l.getLast? = some c → p c = false) : dropTrailing p l = l := by
  unfold dropTrailing
  rw [dropWhile_eq_self_of_head, List.reverse_reverse]
  intro c hc
  exact h c (by rwa [List.head?_reverse] at hc)

theorem pyStrip_eq_self_of_ends {l : List Char}
    (h1 : ∀ c, l.head? = some c → isPySpace c = false)
    (h2 : ∀ c, l.getLast? = some c → isPySpace c = false) : pyStrip l = l := by
  unfold pyStrip
  rw [dropWhile_eq_self_of_head h1, dropTrailing_eq_self_of_getLast h2]

/-! ### takeWhile and whitespace splitting -/

theorem takeWhile_eq_self_of_all {p : Char → Bool} {l : List Char}
    (h : ∀ c ∈ l, p c = true) : l.takeWhile p = l := by
  induction l with
  | nil => rfl
  | cons c t ih =>
    rw [List.takeWhile_cons_of_pos (h c (by simp)), ih (fun d hd => h d (by simp [hd]))]

theorem dropWhile_eq_nil_of_all {p : Char → Bool} {l : List Char}
    (h : ∀ c ∈ l, p c = true) : l.dropWhile p = [] := by
  induction l with
  | nil => rfl
  | cons c t ih =>
    rw [List.dropWhile_cons_of_pos (h c (by simp)), ih (fun d hd => h d (by simp [hd]))]

theorem takeWhile_append_stop {p : Char → Bool} {A : List Char} (hA : ∀ c ∈ A, p c = true)
    {x : Char} (hx : p x = false) (B : List Char) :
    (A ++ x :: B).takeWhile p = A ∧ (A ++ x :: B).dropWhile p = x :: B := by
  induction A with
  | nil =>
    constructor
    · rw [List.nil_append, List.takeWhile_cons_of_neg (by simp [hx])]
    · rw [List.nil_append, List.dropWhile_cons_of_neg (by simp [hx])]
  | cons a A ih =>
    obtain ⟨ih1, ih2⟩ := ih (fun d hd => hA d (by simp [hd]))
    constructor
    · rw [List.cons_append, List.takeWhile_cons_of_pos (hA a (by simp)), ih1]
    · rw [List.cons_append, List.dropWhile_cons_of_pos (hA a (by simp)), ih2]

theorem splitWsAux_nil (f : Nat) : splitWsAux f [] = [] := by
  cases f <;> simp [splitWsAux]

theorem splitWsAux_two {f : Nat} (hf : 2 ≤ f) {A B : List Char}
    (hA : A ≠ []) (hAn : ∀ c ∈ A, isPySpace c = false)
    (hB : B ≠ []) (hBn : ∀ c ∈ B, isPySpace c = false) :
    splitWsAux f (A ++ ' ' :: B) = [A, B] := by
  obtain ⟨g, rfl⟩ : ∃ g, f = g + 1 + 1 := ⟨f - 2, by omega⟩
  obtain ⟨a, A1, rfl⟩ := List.exists_cons_of_ne_nil hA
  obtain ⟨b, B1, rfl⟩ := List.exists_cons_of_ne_nil hB
  have hA1n : ∀ c ∈ A1, (fun d => ! isPySpace d) c = true := by
    intro c hc; simp [hAn c (by simp [hc])]
  have hB1n : ∀ c ∈ B1, (fun d => ! isPySpace d) c = true := by
    intro c hc; simp [hBn c (by simp [hc])]
  have hsplit := takeWhile_append_stop hA1n
    (show (fun d => ! isPySpace d) ' ' = false from by simp [isPySpace]) (b :: B1)
  show splitWsAux (g + 1 + 1) ((a :: A1) ++ ' ' :: b :: B1) = _
  rw [splitWsAux, List.cons_append,
    List.dropWhile_cons_of_neg (by simp [hAn a (by simp)])]
  simp only [hsplit.1, hsplit.2]
  rw [splitWsAux, List.dropWhile_cons_of_pos (by simp [isPySpace]),
    List.dropWhile_cons_of_neg (by simp [hBn b (by simp)])]
  simp only [takeWhile_eq_self_of_all hB1n, dropWhile_eq_nil_of_all hB1n, splitWsAux_nil]

theorem splitWs_token {A B : List Char} (hA : A ≠ [])
    (hAn : ∀ c ∈ A, isPySpace c = false) (hB : B ≠ [])
    (hBn : ∀ c ∈ B, isPySpace c = false) :
    splitWs (A ++ ' ' :: B) = [A, B] := by
  unfold splitWs
  apply splitWsAux_two _ hA hAn hB hBn
  have := List.length_pos.mpr hA
  have := List.length_pos.mpr hB
  simp only [List.length_append, List.length_cons]
  omega

/-! ### Checksum line parsing -/

theorem renderInt_ne_nil (i : Int) : renderInt i ≠ [] := by
  unfold renderInt
  split
  · simp
  · exact renderNat_ne_nil _

theorem chkParse_chk2 (fil : Int) :
    chkParse ("CHK2".toList ++ ' ' :: renderInt fil) = .ok fil := by
  have hAn : ∀ c ∈ "CHK2".toList, isPySpace c = false := by decide
  have hBn := renderInt_no_space fil
  have hstrip : pyStrip ("CHK2".toList ++ ' ' :: renderInt fil) =
      "CHK2".toList ++ ' ' :: renderInt fil := by
    apply pyStrip_eq_self_of_ends
    · intro c hc
      rw [show ("CHK2".toList ++ ' ' :: renderInt fil).head? = some 'C' from rfl] at hc
      injection hc with h
      subst h
      decide
    · intro c hc
      rw [show "CHK2".toList ++ ' ' :: renderInt fil =
          ("CHK2".toList ++ [' ']) ++ renderInt fil from by simp,
        List.getLast?_append_of_ne_nil _ (renderInt_ne_nil fil)] at hc
      exact hBn c (List.mem_of_mem_getLast? (by rw [hc]; rfl))
  unfold chkParse
  rw [hstrip, splitWs_token (by decide) hAn (renderInt_ne_nil fil) hBn]
  simp [pyIntO_renderInt]

theorem toList_mk (l : List Char) : (String.mk l).toList = l := rfl

theorem cumsumFrom_length (a : Int) (l : List Int) : (cumsumFrom a l).length = l.length := by
  induction l generalizing a with
  | nil => rfl
  | cons x t ih => simp [cumsumFrom, ih]

theorem rem_2nd_diff_length (l : List Int) : (rem_2nd_diff l).length = l.length := by
  unfold rem_2nd_diff
  rw [cumsumFrom_length, cumsumFrom_length]

theorem scanCHK_suffix (tok : List Char) (ls : List String) : (scanCHK tok ls).2 <:+ ls := by
  induction ls with
  | nil => exact List.nil_suffix
  | cons l rest ih =>
    unfold scanCHK
    split
    · exact List.suffix_cons l rest
    · exact ih.trans (List.suffix_cons l rest)

theorem readHeader_suffix (ls : List String) : (readHeader ls).2 <:+ ls := by
  induction ls with
  | nil => exact List.nil_suffix
  | cons l rest ih =>
    unfold readHeader
    split
    · exact List.suffix_cons l rest
    · exact ih.trans (List.suffix_cons l rest)

theorem stripTN_of_no_nul {l : List Char} (h : ∀ c ∈ l, ¬ c = Char.ofNat 0) :
    stripTrailingNulls l = l :=
  dropTrailing_eq_self (by
    intro c hc
    simpa using h c hc)

theorem stripTN_append_replicate (k : Nat) (l : List Char) :
    stripTrailingNulls (l ++ List.replicate k (Char.ofNat 0)) = stripTrailingNulls l :=
  dropTrailing_append_replicate (by simp) k l

theorem stripTN_replicate (k : Nat) :
    stripTrailingNulls (List.replicate k (Char.ofNat 0)) = [] := by
  have := stripTN_append_replicate k []
  simpa using this

/-- The length of the `i`-th 80-byte row of the scratch buffer after numpy
strips its trailing NUL bytes. -/
theorem chunkLen {comp : List Char} {n i : Nat} (hB : comp.length ≤ 4 * n)
    (hi : 80 * i + 80 ≤ 4 * n) (hnn : ∀ c ∈ comp, ¬ c = Char.ofNat 0) :
    (stripTrailingNulls (sliceL (80 * i) (80 * i + 80)
      (comp ++ List.replicate (4 * n - comp.length) (Char.ofNat 0)))).length =
    min 80 (comp.length - 80 * i) := by
  have hlen : (comp ++ List.replicate (4 * n - comp.length) (Char.ofNat 0)).length = 4 * n := by
    simp only [List.length_append, List.length_replicate]
    omega
  unfold sliceL
  rw [show 80 * i + 80 - 80 * i = 80 from by omega]
  by_cases h1 : 80 * i + 80 ≤ comp.length
  · rw [List.drop_append_of_le_length (by omega),
      List.take_append_of_le_length (by rw [List.length_drop]; omega)]
    rw [stripTN_of_no_nul (fun c hc =>
      hnn c (List.drop_subset _ _ (List.take_subset _ _ hc)))]
    rw [List.length_take, List.length_drop]
  · by_cases h2 : 80 * i ≤ comp.length
    · rw [List.drop_append_of_le_length h2, List.take_append_eq_append_take,
        List.take_replicate]
      rw [List.take_of_length_le (by rw [List.length_drop]; omega)]
      rw [stripTN_append_replicate (_ ⊓ _) (comp.drop (80 * i)),
        stripTN_of_no_nul (fun c hc => hnn c (List.drop_subset _ _ hc)),
        List.length_drop]
      omega
    · rw [List.drop_append_eq_append_drop,
        List.drop_eq_nil_of_le (by omega), List.nil_append, List.drop_replicate,
        List.take_replicate, stripTN_replicate]
      simp
      omega


/-! ### Support for the header round trip -/

theorem roundHEn_exact {a d : Nat} (hd : 0 < d) (hdvd : a % d = 0) : roundHEn a d = a / d := by
  unfold roundHEn
  rw [hdvd, if_pos (by omega)]

theorem scaledRound_of_le {v : DecVal} {d : Nat} (hk : v.k ≤ (d : Int)) :
    scaledRound d v = scaled v d := by
  unfold scaledRound scaled
  rw [if_pos (by omega)]
  congr 2
  omega

theorem canon_pow_ten (m k : Int) (t : Nat) : canon (m * 10 ^ t) (k + (t : Int)) = canon m k := by
  induction t with
  | zero => simp
  | succ t ih =>
    rw [show m * 10 ^ (t + 1) = (m * 10 ^ t) * 10 from by ring,
      show k + ((t + 1 : Nat) : Int) = (k + (t : Int)) + 1 from by push_cast; ring,
      canon_mul_ten, ih]

theorem canon_scaled {v : DecVal} {d : Nat} (hc : IsCanon v) (hk : v.k ≤ (d : Int)) :
    canon (scaled v d) (d : Int) = v := by
  unfold scaled
  generalize hgen : ((d : Int) - v.k).toNat = t
  have ht : (d : Int) = v.k + (t : Int) := by omega
  rw [ht, canon_pow_ten, canon_self hc]

theorem padL_length (w : Nat) (c : Char) (l : List Char) :
    (padL w c l).length = max w l.length := by
  simp [padL]
  omega

theorem padR_length (w : Nat) (l : List Char) :
    (padR w l).length = max w l.length := by
  simp [padR]
  omega

theorem z2_of_nonneg {i : Int} (h : 0 ≤ i) : z2 i = padL 2 '0' (renderNat i.natAbs) := by
  unfold z2
  rw [if_neg (by omega)]

theorem z2_length {i : Int} (h0 : 0 ≤ i) (h99 : i ≤ 99) : (z2 i).length = 2 := by
  rw [z2_of_nonneg h0, padL_length]
  have : (renderNat i.natAbs).length ≤ 2 :=
    renderNat_length_le (by omega) (by omega)
  omega

theorem pyIntO_z2 {i : Int} (h : 0 ≤ i) : pyIntO (z2 i) = some i := by
  rw [z2_of_nonneg h, pyIntO_padL_zero]
  congr 1
  omega

theorem renderInt_length_of_nonneg {i : Int} {w : Nat} (h0 : 0 ≤ i) (hw : 1 ≤ w)
    (hb : i < 10 ^ w) : (renderInt i).length ≤ w := by
  unfold renderInt
  rw [if_neg (by omega)]
  have hcast : ((10 ^ w : Nat) : Int) = (10 : Int) ^ w := by push_cast; ring
  exact renderNat_length_le hw (by omega)

theorem intPad_length {i : Int} {w : Nat} (h0 : 0 ≤ i) (hw : 1 ≤ w) (hb : i < 10 ^ w) :
    (intPad w i).length = w := by
  unfold intPad
  rw [padL_length]
  have := renderInt_length_of_nonneg h0 hw hb
  omega

theorem strOK_padR_length {s : String} {w : Nat} (h : strOK s w) :
    (padR w s.toList).length = w := by
  rw [padR_length]
  have := h.1
  omega

theorem slice_pieces {pre mid post : List Char} {a b : Nat} (ha : pre.length = a)
    (hb : mid.length = b - a) (hab : a ≤ b) :
    sliceL a b (pre ++ (mid ++ post)) = mid := by
  unfold sliceL
  rw [← hb, ← ha, List.drop_left, List.take_left]

theorem scaled_nonneg {v : DecVal} {d : Nat} (hm : 0 ≤ v.m) : 0 ≤ scaled v d :=
  mul_nonneg hm (pow_nonneg (by norm_num) _)

theorem scaled_neg {v : DecVal} {d : Nat} (hm : v.m < 0) : scaled v d < 0 :=
  mul_neg_of_neg_of_pos hm (pow_pos (by norm_num) _)

theorem fmtFixed_eq_pos {v : DecVal} {w d : Nat} (hk : v.k ≤ (d : Int)) (hm : 0 ≤ v.m) :
    fmtFixed w d v = padL w ' ' (fixedCore d (scaled v d).natAbs) := by
  unfold fmtFixed
  rw [scaledRound_of_le hk, if_neg]
  push_neg
  exact ⟨scaled_nonneg hm, fun h => absurd hm (by omega)⟩

theorem fmtFixed_eq_neg {v : DecVal} {w d : Nat} (hk : v.k ≤ (d : Int)) (hm : v.m < 0) :
    fmtFixed w d v = padL w ' ' ('-' :: fixedCore d (scaled v d).natAbs) := by
  unfold fmtFixed
  rw [scaledRound_of_le hk, if_pos (Or.inl (scaled_neg hm))]

theorem padL_append_core {c x : Char} {A B : List Char} {w1 w2 : Nat}
    (hB : B.length = w2) (hA : A.length ≤ w1) :
    padL (w1 + 1 + w2) c (A ++ x :: B) = padL w1 c A ++ x :: B := by
  unfold padL
  rw [List.length_append, List.length_cons, hB,
    show w1 + 1 + w2 - (A.length + (w2 + 1)) = w1 - A.length from by omega,
    List.append_assoc]

theorem secondsField_eq {sec micro : Int} (h1 : 0 ≤ sec) (h2 : sec ≤ 99) (h3 : 0 ≤ micro)
    (h4 : micro < 1000000) (h5 : micro % 1000 = 0) :
    secondsField sec micro =
      padL 2 '0' (renderNat sec.toNat) ++ '.' :: padL 3 '0' (renderNat (micro / 1000).toNat) := by
  have hnat : (sec * 1000000 + micro).natAbs = sec.toNat * 1000000 + micro.toNat := by omega
  unfold secondsField fmtFixedZ scaledRound
  simp only
  rw [show ((6 : Int) - ((3 : Nat) : Int)) = 3 from by norm_num]
  rw [if_neg (by omega : ¬ (3 : Int) ≤ 0)]
  rw [if_neg (by omega : ¬ sec * 1000000 + micro < 0)]
  rw [show ((3 : Int)).toNat = 3 from rfl, show (10 : Nat) ^ 3 = 1000 from by norm_num]
  rw [hnat, roundHEn_exact (by norm_num) (by omega)]
  rw [if_neg (by omega)]
  rw [show (((((sec.toNat * 1000000 + micro.toNat) / 1000 : Nat)) : Int)).natAbs =
    sec.toNat * 1000 + micro.toNat / 1000 from by omega]
  unfold fixedCore
  rw [if_neg (by norm_num), show (10 : Nat) ^ 3 = 1000 from by norm_num]
  rw [show (sec.toNat * 1000 + micro.toNat / 1000) / 1000 = sec.toNat from by omega,
    show (sec.toNat * 1000 + micro.toNat / 1000) % 1000 = (micro / 1000).toNat from by omega]
  have hlen : (padL 3 '0' (renderNat (micro / 1000).toNat)).length = 3 := by
    rw [padL_length]
    have : (renderNat (micro / 1000).toNat).length ≤ 3 :=
      renderNat_length_le (by omega) (by omega)
    omega
  exact padL_append_core hlen
    (renderNat_length_le (by omega) (by omega))

theorem sciMant_bounds {v : DecVal} (hm : v.m ≠ 0) (hL : digitLen v.m.natAbs ≤ 3) :
    100 ≤ sciMant v ∧ sciMant v < 1000 := by
  have h1 : 1 ≤ v.m.natAbs := by
    have := Int.natAbs_pos.mpr hm
    omega
  have hlow := pow_digitLen_le h1
  have hhigh := lt_pow_digitLen v.m.natAbs
  have hLpos := digitLen_pos v.m.natAbs
  constructor
  · have : 10 ^ (digitLen v.m.natAbs - 1) * 10 ^ (3 - digitLen v.m.natAbs) ≤ sciMant v :=
      Nat.mul_le_mul_right _ hlow
    calc (100 : Nat) = 10 ^ (digitLen v.m.natAbs - 1 + (3 - digitLen v.m.natAbs)) := by
          rw [show digitLen v.m.natAbs - 1 + (3 - digitLen v.m.natAbs) = 2 from by omega]
          norm_num
      _ = 10 ^ (digitLen v.m.natAbs - 1) * 10 ^ (3 - digitLen v.m.natAbs) := by rw [pow_add]
      _ ≤ sciMant v := this
  · have : sciMant v < 10 ^ digitLen v.m.natAbs * 10 ^ (3 - digitLen v.m.natAbs) :=
      Nat.mul_lt_mul_of_lt_of_le hhigh (le_refl _) (by positivity)
    calc sciMant v < 10 ^ digitLen v.m.natAbs * 10 ^ (3 - digitLen v.m.natAbs) := this
      _ = 10 ^ (digitLen v.m.natAbs + (3 - digitLen v.m.natAbs)) := by rw [pow_add]
      _ = 1000 := by
          rw [show digitLen v.m.natAbs + (3 - digitLen v.m.natAbs) = 3 from by omega]
          norm_num

theorem fmtSci_eq {v : DecVal} (hm : v.m ≠ 0) (hL : digitLen v.m.natAbs ≤ 3) :
    fmtSci v = padL 10 ' '
      ((if v.m < 0 then ['-'] else []) ++
        (renderNat (sciMant v / 100) ++ '.' ::
          (padL 2 '0' (renderNat (sciMant v % 100)) ++ 'e' ::
            (if sciExpVal v < 0 then '-' else '+') ::
            padL 2 '0' (renderNat (sciExpVal v).natAbs)))) := by
  obtain ⟨hlo, hhi⟩ := sciMant_bounds hm hL
  have hfold : v.m.natAbs * 10 ^ (3 - digitLen v.m.natAbs) = sciMant v := rfl
  have hfold2 : (digitLen v.m.natAbs : Int) - 1 - v.k = sciExpVal v := rfl
  simp only [fmtSci]
  rw [if_neg hm, if_pos hL, hfold, hfold2]
  rw [if_neg (show ¬ sciMant v = 1000 from by omega)]
  rw [if_neg (show ¬ sciMant v = 1000 from by omega)]
  by_cases hneg : v.m < 0
  · rw [if_pos hneg, if_pos hneg]
    simp [List.append_assoc]
  · rw [if_neg hneg, if_neg hneg]
    simp [List.append_assoc]

theorem pyFloatO_shape {sgn : Bool} {w : Nat} {A B rest : List Char}
    (hA : ∀ c ∈ A, isDigitC c = true) (hB : ∀ c ∈ B, isDigitC c = true)
    (hAne : A ≠ []) (hrestsp : ∀ c ∈ rest, isPySpace c = false)
    (hrh : ∀ c, rest.head? = some c → isDigitC c = false) :
    pyFloatO (padL w ' ' ((cond sgn ['-'] []) ++ (A ++ '.' :: (B ++ rest)))) =
      (match rest with
       | [] => some (canon (cond sgn
           (-((parseDigits A : Int) * 10 ^ B.length + (parseDigits B : Int)))
           ((parseDigits A : Int) * 10 ^ B.length + (parseDigits B : Int))) (B.length : Int))
       | c :: t =>
         if c = 'e' ∨ c = 'E' then
           match expPart t with
           | some ex => some (canon (cond sgn
               (-((parseDigits A : Int) * 10 ^ B.length + (parseDigits B : Int)))
               ((parseDigits A : Int) * 10 ^ B.length + (parseDigits B : Int)))
               ((B.length : Int) - ex))
           | none => none
         else none) := by
  have hbody : ∀ c ∈ (cond sgn ['-'] []) ++ (A ++ '.' :: (B ++ rest)), isPySpace c = false := by
    intro c hc
    rcases List.mem_append.mp hc with hc | hc
    · cases sgn <;> simp at hc
      rcases hc with rfl
      rfl
    · rcases List.mem_append.mp hc with hc | hc
      · exact digit_not_space (hA c hc)
      · rcases List.mem_cons.mp hc with rfl | hc
        · rfl
        · rcases List.mem_append.mp hc with hc | hc
          · exact digit_not_space (hB c hc)
          · exact hrestsp c hc
  have hstrip : pyStrip (padL w ' '
      ((cond sgn ['-'] []) ++ (A ++ '.' :: (B ++ rest)))) =
      (cond sgn ['-'] []) ++ (A ++ '.' :: (B ++ rest)) := by
    unfold padL
    rw [pyStrip_spaces_left, pyStrip_eq_self hbody]
  have hsign : takeSign ((cond sgn ['-'] []) ++ (A ++ '.' :: (B ++ rest))) =
      (sgn, A ++ '.' :: (B ++ rest)) := by
    cases sgn with
    | true => rfl
    | false =>
      obtain ⟨a, A1, rfl⟩ := List.exists_cons_of_ne_nil hAne
      show takeSign (a :: (A1 ++ '.' :: (B ++ rest))) = _
      exact takeSign_of_digit_head (hA a (by simp))
  have hsplit := takeWhile_append_stop hA
    (show isDigitC '.' = false from rfl) (B ++ rest)
  have hfr1 : (B ++ rest).takeWhile isDigitC = B := by
    cases rest with
    | nil => rw [List.append_nil]; exact takeWhile_eq_self_of_all hB
    | cons r t => exact (takeWhile_append_stop hB (hrh r rfl) t).1
  have hfr2 : (B ++ rest).dropWhile isDigitC = rest := by
    cases rest with
    | nil => rw [List.append_nil]; exact dropWhile_eq_nil_of_all hB
    | cons r t => exact (takeWhile_append_stop hB (hrh r rfl) t).2
  simp only [pyFloatO, hstrip, hsign, hsplit.1, hsplit.2, pointPart, hfr1, hfr2]
  rw [if_neg (by simp [hAne])]
  cases sgn <;> cases rest <;> rfl

theorem expPart_signed {e : Int} {E : List Char}
    (hE : ∀ c ∈ E, isDigitC c = true) (hEne : E ≠ [])
    (hparse : (parseDigits E : Int) = e.natAbs) :
    expPart ((if e < 0 then '-' else '+') :: E) = some e := by
  by_cases he : e < 0
  · rw [if_pos he]
    have hts : takeSign ('-' :: E) = (true, E) := rfl
    simp only [expPart, hts]
    rw [if_neg (by simp [hEne]), if_pos (by
      simp only [List.all_eq_true]
      intro c hc; exact hE c hc)]
    simp only [if_true, hparse, Option.some.injEq]
    omega
  · rw [if_neg he]
    have hts : takeSign ('+' :: E) = (false, E) := rfl
    simp only [expPart, hts]
    rw [if_neg (by simp [hEne]), if_pos (by
      simp only [List.all_eq_true]
      intro c hc; exact hE c hc)]
    simp only [Bool.false_eq_true, if_false, hparse, Option.some.injEq]
    omega

theorem padL_zero_digits {d n : Nat} : ∀ c ∈ padL d '0' (renderNat n), isDigitC c = true := by
  intro c hc
  rcases List.mem_append.mp hc with hc | hc
  · rcases List.eq_of_mem_replicate hc with rfl; rfl
  · exact renderNat_all_digits n c hc

theorem padL_zero_length {d n : Nat} (hd : 1 ≤ d) (hn : n < 10 ^ d) :
    (padL d '0' (renderNat n)).length = d := by
  rw [padL_length]
  have := renderNat_length_le hd hn
  omega

theorem parseDigits_padL_zero_renderNat (d n : Nat) :
    parseDigits (padL d '0' (renderNat n)) = n := by
  rw [parseDigits_padL_zero, parseDigits_renderNat]

theorem pyFloatO_fmtFixed {v : DecVal} {w d : Nat} (hc : IsCanon v) (hk : v.k ≤ (d : Int))
    (hd : 1 ≤ d) : pyFloatO (fmtFixed w d v) = some v := by
  have hmod : (scaled v d).natAbs % 10 ^ d < 10 ^ d := Nat.mod_lt _ (by positivity)
  have hBlen : (padL d '0' (renderNat ((scaled v d).natAbs % 10 ^ d))).length = d :=
    padL_zero_length hd hmod
  have hdm := Nat.div_add_mod (scaled v d).natAbs (10 ^ d)
  have hval : (parseDigits (renderNat ((scaled v d).natAbs / 10 ^ d)) : Int) *
      10 ^ d +
      (parseDigits (padL d '0' (renderNat ((scaled v d).natAbs % 10 ^ d))) : Int) =
      ((scaled v d).natAbs : Int) := by
    rw [parseDigits_renderNat, parseDigits_padL_zero_renderNat]
    have h : ((10 ^ d * ((scaled v d).natAbs / 10 ^ d) +
        (scaled v d).natAbs % 10 ^ d : Nat) : Int) = ((scaled v d).natAbs : Int) := by
      rw [hdm]
    push_cast at h ⊢
    linear_combination h
  have hcore : fixedCore d (scaled v d).natAbs =
      renderNat ((scaled v d).natAbs / 10 ^ d) ++ '.' ::
        (padL d '0' (renderNat ((scaled v d).natAbs % 10 ^ d)) ++ []) := by
    unfold fixedCore
    rw [if_neg (by omega), List.append_nil]
  rcases le_or_lt 0 v.m with hm | hm
  · rw [fmtFixed_eq_pos hk hm, hcore,
      show renderNat ((scaled v d).natAbs / 10 ^ d) ++ '.' ::
          (padL d '0' (renderNat ((scaled v d).natAbs % 10 ^ d)) ++ []) =
        (cond false ['-'] []) ++ (renderNat ((scaled v d).natAbs / 10 ^ d) ++ '.' ::
          (padL d '0' (renderNat ((scaled v d).natAbs % 10 ^ d)) ++ [])) from rfl]
    rw [pyFloatO_shape (renderNat_all_digits _) padL_zero_digits (renderNat_ne_nil _)
      (by simp) (by simp)]
    simp only [cond, hBlen, hval]
    have habs : ((scaled v d).natAbs : Int) = scaled v d :=
      Int.natAbs_of_nonneg (scaled_nonneg hm)
    rw [habs, canon_scaled hc hk]
  · rw [fmtFixed_eq_neg hk hm, hcore,
      show '-' :: (renderNat ((scaled v d).natAbs / 10 ^ d) ++ '.' ::
          (padL d '0' (renderNat ((scaled v d).natAbs % 10 ^ d)) ++ [])) =
        (cond true ['-'] []) ++ (renderNat ((scaled v d).natAbs / 10 ^ d) ++ '.' ::
          (padL d '0' (renderNat ((scaled v d).natAbs % 10 ^ d)) ++ [])) from rfl]
    rw [pyFloatO_shape (renderNat_all_digits _) padL_zero_digits (renderNat_ne_nil _)
      (by simp) (by simp)]
    simp only [cond, hBlen, hval]
    have habs : -((scaled v d).natAbs : Int) = scaled v d := by
      have := @scaled_neg v d hm
      omega
    rw [habs, canon_scaled hc hk]

theorem padL_zero_ne_nil {d n : Nat} : padL d '0' (renderNat n) ≠ [] := by
  unfold padL
  simp only [ne_eq, List.append_eq_nil, not_and]
  intro _
  exact renderNat_ne_nil n

theorem pyFloatO_fmtSci {v : DecVal} (hs : sciOK v) : pyFloatO (fmtSci v) = some v := by
  obtain ⟨hc, hcase⟩ := hs
  by_cases hm : v.m = 0
  · have hz : v = ⟨0, 0⟩ := by
      obtain ⟨m, k⟩ := v
      obtain ⟨h1, _⟩ := hc
      simp only at hm
      subst hm
      have hk : k = 0 := h1 rfl
      subst hk
      rfl
    rw [hz]
    decide
  · obtain ⟨hL, he1, he2⟩ := hcase.resolve_left hm
    rw [fmtSci_eq hm hL,
      show (if v.m < 0 then (['-'] : List Char) else []) =
        cond (decide (v.m < 0)) ['-'] [] from by rw [Bool.cond_decide]]
    rw [pyFloatO_shape (renderNat_all_digits _) padL_zero_digits (renderNat_ne_nil _)
      (by
        intro c hcm
        rcases List.mem_cons.mp hcm with rfl | hcm
        · rfl
        rcases List.mem_cons.mp hcm with rfl | hcm
        · split_ifs <;> rfl
        · exact digit_not_space (padL_zero_digits c hcm))
      (by
        intro c hcc
        rw [show ('e' :: (if sciExpVal v < 0 then '-' else '+') ::
            padL 2 '0' (renderNat (sciExpVal v).natAbs)).head? = some 'e' from rfl] at hcc
        injection hcc with hcc
        subst hcc
        rfl)]
    simp only [eq_self_iff_true, true_or, if_true]
    rw [expPart_signed padL_zero_digits padL_zero_ne_nil
      (by rw [parseDigits_padL_zero_renderNat])]
    simp only [Option.some.injEq]
    have hBlen : (padL 2 '0' (renderNat (sciMant v % 100))).length = 2 :=
      padL_zero_length (by norm_num) (Nat.mod_lt _ (by norm_num))
    have key : ∀ m1 k1 : Int, m1 = v.m * 10 ^ (3 - digitLen v.m.natAbs) →
        k1 = v.k + ((3 - digitLen v.m.natAbs : Nat) : Int) → canon m1 k1 = v := by
      intro m1 k1 h1 h2
      rw [h1, h2, canon_pow_ten, canon_self hc]
    refine key _ _ ?_ ?_
    · have hval2 : ((sciMant v / 100 : Nat) : Int) *
          10 ^ (padL 2 '0' (renderNat (sciMant v % 100))).length +
          ((sciMant v % 100 : Nat) : Int) = (sciMant v : Int) := by
        rw [hBlen]
        have h100 : ((10 : Int)) ^ 2 = 100 := by norm_num
        rw [h100]
        omega
      have hsm : (sciMant v : Int) = (v.m.natAbs : Int) * 10 ^ (3 - digitLen v.m.natAbs) := by
        unfold sciMant
        push_cast
        ring
      rw [parseDigits_renderNat, parseDigits_padL_zero_renderNat, hval2, hsm]
      by_cases hneg : v.m < 0
      · rw [show decide (v.m < 0) = true from decide_eq_true hneg]
        have hna : -((v.m.natAbs : Int)) = v.m := by omega
        simp only [cond]
        linear_combination ((10 : Int) ^ (3 - digitLen v.m.natAbs)) * hna
      · rw [show decide (v.m < 0) = false from decide_eq_false hneg]
        have hna : ((v.m.natAbs : Int)) = v.m := by omega
        simp only [cond]
        linear_combination ((10 : Int) ^ (3 - digitLen v.m.natAbs)) * hna
    · rw [hBlen]
      simp only [sciExpVal]
      omega

/-! ### Width of the formatted numeric fields -/

theorem fixedCore_length_le {d a t : Nat} (hd : 1 ≤ d) (ht : 1 ≤ t)
    (ha : a < 10 ^ (t + d)) : (fixedCore d a).length ≤ t + 1 + d := by
  unfold fixedCore
  rw [if_neg (by omega)]
  rw [List.length_append, List.length_cons]
  have h1 : (renderNat (a / 10 ^ d)).length ≤ t := renderNat_length_le ht (by
    rw [Nat.div_lt_iff_lt_mul (by positivity)]
    calc a < 10 ^ (t + d) := ha
      _ = 10 ^ t * 10 ^ d := by rw [pow_add])
  have h2 : (padL d '0' (renderNat (a % 10 ^ d))).length = d :=
    padL_zero_length hd (Nat.mod_lt _ (by positivity))
  omega

theorem fmtFixed_length {v : DecVal} {w d t1 t2 : Nat} (hk : v.k ≤ (d : Int)) (hd : 1 ≤ d)
    (hw1 : t1 + d + 1 ≤ w) (hw2 : t2 + d + 2 ≤ w) (h1 : 1 ≤ t1) (h2 : 1 ≤ t2)
    (hlo : -((10 : Int) ^ (t2 + d)) < scaled v d) (hhi : scaled v d < (10 : Int) ^ (t1 + d)) :
    (fmtFixed w d v).length = w := by
  rcases le_or_lt 0 v.m with hm | hm
  · rw [fmtFixed_eq_pos hk hm, padL_length]
    have hna : (scaled v d).natAbs < 10 ^ (t1 + d) := by
      have h0 := @scaled_nonneg v d hm
      have hcast : (((10 : Nat) ^ (t1 + d) : Nat) : Int) = (10 : Int) ^ (t1 + d) := by
        push_cast
        ring
      omega
    have hcore := fixedCore_length_le hd h1 hna
    omega
  · rw [fmtFixed_eq_neg hk hm, padL_length, List.length_cons]
    have hna : (scaled v d).natAbs < 10 ^ (t2 + d) := by
      have hneg := @scaled_neg v d hm
      have hcast : (((10 : Nat) ^ (t2 + d) : Nat) : Int) = (10 : Int) ^ (t2 + d) := by
        push_cast
        ring
      omega
    have hcore := fixedCore_length_le hd h2 hna
    omega

theorem fmtSci_length {v : DecVal} (hs : sciOK v) : (fmtSci v).length = 10 := by
  obtain ⟨hc, hcase⟩ := hs
  by_cases hm : v.m = 0
  · have hz : v = ⟨0, 0⟩ := by
      obtain ⟨m, k⟩ := v
      obtain ⟨h1, _⟩ := hc
      simp only at hm
      subst hm
      have hk : k = 0 := h1 rfl
      subst hk
      rfl
    rw [hz]
    rfl
  · obtain ⟨hL, he1, he2⟩ := hcase.resolve_left hm
    obtain ⟨hlo, hhi⟩ := sciMant_bounds hm hL
    rw [fmtSci_eq hm hL, padL_length]
    have l1 : (renderNat (sciMant v / 100)).length ≤ 1 := renderNat_length_le (by norm_num) (by
      have h10 : (10 : Nat) ^ 1 = 10 := by norm_num
      omega)
    have l2 : (padL 2 '0' (renderNat (sciMant v % 100))).length = 2 :=
      padL_zero_length (by norm_num) (Nat.mod_lt _ (by norm_num))
    have l3 : (padL 2 '0' (renderNat (sciExpVal v).natAbs)).length = 2 :=
      padL_zero_length (by norm_num) (by
        unfold sciExpVal
        have h100 : (10 : Nat) ^ 2 = 100 := by norm_num
        omega)
    by_cases hneg : v.m < 0
    · rw [if_pos hneg]
      simp only [List.length_append, List.length_cons, List.length_nil, l2, l3]
      omega
    · rw [if_neg hneg]
      simp only [List.length_append, List.length_cons, List.length_nil, l2, l3]
      omega

theorem padR_snoc_space {l : List Char} {w : Nat} (h : l.length ≤ w) :
    padR w l ++ [' '] = padR (w + 1) l := by
  unfold padR
  rw [List.append_assoc]
  congr 1
  rw [show w + 1 - l.length = (w - l.length) + 1 from by omega, List.replicate_succ']

/-! ### Slice extraction from the serialized WID2 line -/

theorem wid2_head_length : ("WID2 ".toList).length = 5 := rfl

theorem wid2_slice_year {Y MO DA HO MI S2 S3 ST CH AU DT NP SR CB CP IT HA VA : List Char}
    (hY : Y.length = 4) (hMO : MO.length = 2) (hDA : DA.length = 2) (hHO : HO.length = 2) (hMI : MI.length = 2) (hS2 : S2.length = 2) (hS3 : S3.length = 3) (hST : ST.length = 5) (hCH : CH.length = 3) (hAU : AU.length = 4) (hDT : DT.length = 3) (hNP : NP.length = 8) (hSR : SR.length = 11) (hCB : CB.length = 10) (hCP : CP.length = 7) (hIT : IT.length = 6) (hHA : HA.length = 5) (hVA : VA.length = 4) :
    sliceL 5 9 ("WID2 ".toList ++ Y ++ '/' :: MO ++ '/' :: DA ++ ' ' :: HO ++ ':' :: MI ++ ':' :: (S2 ++ '.' :: S3) ++ ' ' :: ST ++ ' ' :: CH ++ ' ' :: AU ++ ' ' :: DT ++ ' ' :: NP ++ ' ' :: SR ++ ' ' :: CB ++ ' ' :: CP ++ ' ' :: IT ++ ' ' :: HA ++ ' ' :: VA) = Y := by
  rw [show ("WID2 ".toList ++ Y ++ '/' :: MO ++ '/' :: DA ++ ' ' :: HO ++ ':' :: MI ++ ':' :: (S2 ++ '.' :: S3) ++ ' ' :: ST ++ ' ' :: CH ++ ' ' :: AU ++ ' ' :: DT ++ ' ' :: NP ++ ' ' :: SR ++ ' ' :: CB ++ ' ' :: CP ++ ' ' :: IT ++ ' ' :: HA ++ ' ' :: VA) =
      ("WID2 ".toList) ++ ((Y) ++ ('/' :: MO ++ '/' :: DA ++ ' ' :: HO ++ ':' :: MI ++ ':' :: S2 ++ '.' :: S3 ++ ' ' :: ST ++ ' ' :: CH ++ ' ' :: AU ++ ' ' :: DT ++ ' ' :: NP ++ ' ' :: SR ++ ' ' :: CB ++ ' ' :: CP ++ ' ' :: IT ++ ' ' :: HA ++ ' ' :: VA)) from by
    simp only [List.append_assoc, List.cons_append, List.singleton_append, List.nil_append,
      List.append_nil]]
  exact slice_pieces
    (by simp only [List.length_append, List.length_cons, List.length_nil, wid2_head_length,
      hY, hMO, hDA, hHO, hMI, hS2, hS3, hST, hCH, hAU, hDT, hNP, hSR, hCB, hCP, hIT, hHA, hVA])
    (by simp only [List.length_append, List.length_cons, List.length_nil, hY, hMO, hDA, hHO, hMI, hS2, hS3, hST, hCH, hAU, hDT, hNP, hSR, hCB, hCP, hIT, hHA, hVA])
    (by norm_num)

theorem wid2_slice_month {Y MO DA HO MI S2 S3 ST CH AU DT NP SR CB CP IT HA VA : List Char}
    (hY : Y.length = 4) (hMO : MO.length = 2) (hDA : DA.length = 2) (hHO : HO.length = 2) (hMI : MI.length = 2) (hS2 : S2.length = 2) (hS3 : S3.length = 3) (hST : ST.length = 5) (hCH : CH.length = 3) (hAU : AU.length = 4) (hDT : DT.length = 3) (hNP : NP.length = 8) (hSR : SR.length = 11) (hCB : CB.length = 10) (hCP : CP.length = 7) (hIT : IT.length = 6) (hHA : HA.length = 5) (hVA : VA.length = 4) :
    sliceL 10 12 ("WID2 ".toList ++ Y ++ '/' :: MO ++ '/' :: DA ++ ' ' :: HO ++ ':' :: MI ++ ':' :: (S2 ++ '.' :: S3) ++ ' ' :: ST ++ ' ' :: CH ++ ' ' :: AU ++ ' ' :: DT ++ ' ' :: NP ++ ' ' :: SR ++ ' ' :: CB ++ ' ' :: CP ++ ' ' :: IT ++ ' ' :: HA ++ ' ' :: VA) = MO := by
  rw [show ("WID2 ".toList ++ Y ++ '/' :: MO ++ '/' :: DA ++ ' ' :: HO ++ ':' :: MI ++ ':' :: (S2 ++ '.' :: S3) ++ ' ' :: ST ++ ' ' :: CH ++ ' ' :: AU ++ ' ' :: DT ++ ' ' :: NP ++ ' ' :: SR ++ ' ' :: CB ++ ' ' :: CP ++ ' ' :: IT ++ ' ' :: HA ++ ' ' :: VA) =
      ("WID2 ".toList ++ Y ++ ['/']) ++ ((MO) ++ ('/' :: DA ++ ' ' :: HO ++ ':' :: MI ++ ':' :: S2 ++ '.' :: S3 ++ ' ' :: ST ++ ' ' :: CH ++ ' ' :: AU ++ ' ' :: DT ++ ' ' :: NP ++ ' ' :: SR ++ ' ' :: CB ++ ' ' :: CP ++ ' ' :: IT ++ ' ' :: HA ++ ' ' :: VA)) from by
    simp only [List.append_assoc, List.cons_append, List.singleton_append, List.nil_append,
      List.append_nil]]
  exact slice_pieces
    (by simp only [List.length_append, List.length_cons, List.length_nil, wid2_head_length,
      hY, hMO, hDA, hHO, hMI, hS2, hS3, hST, hCH, hAU, hDT, hNP, hSR, hCB, hCP, hIT, hHA, hVA])
    (by simp only [List.length_append, List.length_cons, List.length_nil, hY, hMO, hDA, hHO, hMI, hS2, hS3, hST, hCH, hAU, hDT, hNP, hSR, hCB, hCP, hIT, hHA, hVA])
    (by norm_num)

theorem wid2_slice_day {Y MO DA HO MI S2 S3 ST CH AU DT NP SR CB CP IT HA VA : List Char}
    (hY : Y.length = 4) (hMO : MO.length = 2) (hDA : DA.length = 2) (hHO : HO.length = 2) (hMI : MI.length = 2) (hS2 : S2.length = 2) (hS3 : S3.length = 3) (hST : ST.length = 5) (hCH : CH.length = 3) (hAU : AU.length = 4) (hDT : DT.length = 3) (hNP : NP.length = 8) (hSR : SR.length = 11) (hCB : CB.length = 10) (hCP : CP.length = 7) (hIT : IT.length = 6) (hHA : HA.length = 5) (hVA : VA.length = 4) :
    sliceL 13 15 ("WID2 ".toList ++ Y ++ '/' :: MO ++ '/' :: DA ++ ' ' :: HO ++ ':' :: MI ++ ':' :: (S2 ++ '.' :: S3) ++ ' ' :: ST ++ ' ' :: CH ++ ' ' :: AU ++ ' ' :: DT ++ ' ' :: NP ++ ' ' :: SR ++ ' ' :: CB ++ ' ' :: CP ++ ' ' :: IT ++ ' ' :: HA ++ ' ' :: VA) = DA := by
  rw [show ("WID2 ".toList ++ Y ++ '/' :: MO ++ '/' :: DA ++ ' ' :: HO ++ ':' :: MI ++ ':' :: (S2 ++ '.' :: S3) ++ ' ' :: ST ++ ' ' :: CH ++ ' ' :: AU ++ ' ' :: DT ++ ' ' :: NP ++ ' ' :: SR ++ ' ' :: CB ++ ' ' :: CP ++ ' ' :: IT ++ ' ' :: HA ++ ' ' :: VA) =
      ("WID2 ".toList ++ Y ++ '/' :: MO ++ ['/']) ++ ((DA) ++ (' ' :: HO ++ ':' :: MI ++ ':' :: S2 ++ '.' :: S3 ++ ' ' :: ST ++ ' ' :: CH ++ ' ' :: AU ++ ' ' :: DT ++ ' ' :: NP ++ ' ' :: SR ++ ' ' :: CB ++ ' ' :: CP ++ ' ' :: IT ++ ' ' :: HA ++ ' ' :: VA)) from by
    simp only [List.append_assoc, List.cons_append, List.singleton_append, List.nil_append,
      List.append_nil]]
  exact slice_pieces
    (by simp only [List.length_append, List.length_cons, List.length_nil, wid2_head_length,
      hY, hMO, hDA, hHO, hMI, hS2, hS3, hST, hCH, hAU, hDT, hNP, hSR, hCB, hCP, hIT, hHA, hVA])
    (by simp only [List.length_append, List.length_cons, List.length_nil, hY, hMO, hDA, hHO, hMI, hS2, hS3, hST, hCH, hAU, hDT, hNP, hSR, hCB, hCP, hIT, hHA, hVA])
    (by norm_num)

theorem wid2_slice_hour {Y MO DA HO MI S2 S3 ST CH AU DT NP SR CB CP IT HA VA : List Char}
    (hY : Y.length = 4) (hMO : MO.length = 2) (hDA : DA.length = 2) (hHO : HO.length = 2) (hMI : MI.length = 2) (hS2 : S2.length = 2) (hS3 : S3.length = 3) (hST : ST.length = 5) (hCH : CH.length = 3) (hAU : AU.length = 4) (hDT : DT.length = 3) (hNP : NP.length = 8) (hSR : SR.length = 11) (hCB : CB.length = 10) (hCP : CP.length = 7) (hIT : IT.length = 6) (hHA : HA.length = 5) (hVA : VA.length = 4) :
    sliceL 16 18 ("WID2 ".toList ++ Y ++ '/' :: MO ++ '/' :: DA ++ ' ' :: HO ++ ':' :: MI ++ ':' :: (S2 ++ '.' :: S3) ++ ' ' :: ST ++ ' ' :: CH ++ ' ' :: AU ++ ' ' :: DT ++ ' ' :: NP ++ ' ' :: SR ++ ' ' :: CB ++ ' ' :: CP ++ ' ' :: IT ++ ' ' :: HA ++ ' ' :: VA) = HO := by
  rw [show ("WID2 ".toList ++ Y ++ '/' :: MO ++ '/' :: DA ++ ' ' :: HO ++ ':' :: MI ++ ':' :: (S2 ++ '.' :: S3) ++ ' ' :: ST ++ ' ' :: CH ++ ' ' :: AU ++ ' ' :: DT ++ ' ' :: NP ++ ' ' :: SR ++ ' ' :: CB ++ ' ' :: CP ++ ' ' :: IT ++ ' ' :: HA ++ ' ' :: VA) =
      ("WID2 ".toList ++ Y ++ '/' :: MO ++ '/' :: DA ++ [' ']) ++ ((HO) ++ (':' :: MI ++ ':' :: S2 ++ '.' :: S3 ++ ' ' :: ST ++ ' ' :: CH ++ ' ' :: AU ++ ' ' :: DT ++ ' ' :: NP ++ ' ' :: SR ++ ' ' :: CB ++ ' ' :: CP ++ ' ' :: IT ++ ' ' :: HA ++ ' ' :: VA)) from by
    simp only [List.append_assoc, List.cons_append, List.singleton_append, List.nil_append,
      List.append_nil]]
  exact slice_pieces
    (by simp only [List.length_append, List.length_cons, List.length_nil, wid2_head_length,
      hY, hMO, hDA, hHO, hMI, hS2, hS3, hST, hCH, hAU, hDT, hNP, hSR, hCB, hCP, hIT, hHA, hVA])
    (by simp only [List.length_append, List.length_cons, List.length_nil, hY, hMO, hDA, hHO, hMI, hS2, hS3, hST, hCH, hAU, hDT, hNP, hSR, hCB, hCP, hIT, hHA, hVA])
    (by norm_num)

theorem wid2_slice_minute {Y MO DA HO MI S2 S3 ST CH AU DT NP SR CB CP IT HA VA : List Char}
    (hY : Y.length = 4) (hMO : MO.length = 2) (hDA : DA.length = 2) (hHO : HO.length = 2) (hMI : MI.length = 2) (hS2 : S2.length = 2) (hS3 : S3.length = 3) (hST : ST.length = 5) (hCH : CH.length = 3) (hAU : AU.length = 4) (hDT : DT.length = 3) (hNP : NP.length = 8) (hSR : SR.length = 11) (hCB : CB.length = 10) (hCP : CP.length = 7) (hIT : IT.length = 6) (hHA : HA.length = 5) (hVA : VA.length = 4) :
    sliceL 19 21 ("WID2 ".toList ++ Y ++ '/' :: MO ++ '/' :: DA ++ ' ' :: HO ++ ':' :: MI ++ ':' :: (S2 ++ '.' :: S3) ++ ' ' :: ST ++ ' ' :: CH ++ ' ' :: AU ++ ' ' :: DT ++ ' ' :: NP ++ ' ' :: SR ++ ' ' :: CB ++ ' ' :: CP ++ ' ' :: IT ++ ' ' :: HA ++ ' ' :: VA) = MI := by
  rw [show ("WID2 ".toList ++ Y ++ '/' :: MO ++ '/' :: DA ++ ' ' :: HO ++ ':' :: MI ++ ':' :: (S2 ++ '.' :: S3) ++ ' ' :: ST ++ ' ' :: CH ++ ' ' :: AU ++ ' ' :: DT ++ ' ' :: NP ++ ' ' :: SR ++ ' ' :: CB ++ ' ' :: CP ++ ' ' :: IT ++ ' ' :: HA ++ ' ' :: VA) =
      ("WID2 ".toList ++ Y ++ '/' :: MO ++ '/' :: DA ++ ' ' :: HO ++ [':']) ++ ((MI) ++ (':' :: S2 ++ '.' :: S3 ++ ' ' :: ST ++ ' ' :: CH ++ ' ' :: AU ++ ' ' :: DT ++ ' ' :: NP ++ ' ' :: SR ++ ' ' :: CB ++ ' ' :: CP ++ ' ' :: IT ++ ' ' :: HA ++ ' ' :: VA)) from by
    simp only [List.append_assoc, List.cons_append, List.singleton_append, List.nil_append,
      List.append_nil]]
  exact slice_pieces
    (by simp only [List.length_append, List.length_cons, List.length_nil, wid2_head_length,
      hY, hMO, hDA, hHO, hMI, hS2, hS3, hST, hCH, hAU, hDT, hNP, hSR, hCB, hCP, hIT, hHA, hVA])
    (by simp only [List.length_append, List.length_cons, List.length_nil, hY, hMO, hDA, hHO, hMI, hS2, hS3, hST, hCH, hAU, hDT, hNP, hSR, hCB, hCP, hIT, hHA, hVA])
    (by norm_num)

theorem wid2_slice_second {Y MO DA HO MI S2 S3 ST CH AU DT NP SR CB CP IT HA VA : List Char}
    (hY : Y.length = 4) (hMO : MO.length = 2) (hDA : DA.length = 2) (hHO : HO.length = 2) (hMI : MI.length = 2) (hS2 : S2.length = 2) (hS3 : S3.length = 3) (hST : ST.length = 5) (hCH : CH.length = 3) (hAU : AU.length = 4) (hDT : DT.length = 3) (hNP : NP.length = 8) (hSR : SR.length = 11) (hCB : CB.length = 10) (hCP : CP.length = 7) (hIT : IT.length = 6) (hHA : HA.length = 5) (hVA : VA.length = 4) :
    sliceL 22 24 ("WID2 ".toList ++ Y ++ '/' :: MO ++ '/' :: DA ++ ' ' :: HO ++ ':' :: MI ++ ':' :: (S2 ++ '.' :: S3) ++ ' ' :: ST ++ ' ' :: CH ++ ' ' :: AU ++ ' ' :: DT ++ ' ' :: NP ++ ' ' :: SR ++ ' ' :: CB ++ ' ' :: CP ++ ' ' :: IT ++ ' ' :: HA ++ ' ' :: VA) = S2 := by
  rw [show ("WID2 ".toList ++ Y ++ '/' :: MO ++ '/' :: DA ++ ' ' :: HO ++ ':' :: MI ++ ':' :: (S2 ++ '.' :: S3) ++ ' ' :: ST ++ ' ' :: CH ++ ' ' :: AU ++ ' ' :: DT ++ ' ' :: NP ++ ' ' :: SR ++ ' ' :: CB ++ ' ' :: CP ++ ' ' :: IT ++ ' ' :: HA ++ ' ' :: VA) =
      ("WID2 ".toList ++ Y ++ '/' :: MO ++ '/' :: DA ++ ' ' :: HO ++ ':' :: MI ++ [':']) ++ ((S2) ++ ('.' :: S3 ++ ' ' :: ST ++ ' ' :: CH ++ ' ' :: AU ++ ' ' :: DT ++ ' ' :: NP ++ ' ' :: SR ++ ' ' :: CB ++ ' ' :: CP ++ ' ' :: IT ++ ' ' :: HA ++ ' ' :: VA)) from by
    simp only [List.append_assoc, List.cons_append, List.singleton_append, List.nil_append,
      List.append_nil]]
  exact slice_pieces
    (by simp only [List.length_append, List.length_cons, List.length_nil, wid2_head_length,
      hY, hMO, hDA, hHO, hMI, hS2, hS3, hST, hCH, hAU, hDT, hNP, hSR, hCB, hCP, hIT, hHA, hVA])
    (by simp only [List.length_append, List.length_cons, List.length_nil, hY, hMO, hDA, hHO, hMI, hS2, hS3, hST, hCH, hAU, hDT, hNP, hSR, hCB, hCP, hIT, hHA, hVA])
    (by norm_num)

theorem wid2_slice_msec {Y MO DA HO MI S2 S3 ST CH AU DT NP SR CB CP IT HA VA : List Char}
    (hY : Y.length = 4) (hMO : MO.length = 2) (hDA : DA.length = 2) (hHO : HO.length = 2) (hMI : MI.length = 2) (hS2 : S2.length = 2) (hS3 : S3.length = 3) (hST : ST.length = 5) (hCH : CH.length = 3) (hAU : AU.length = 4) (hDT : DT.length = 3) (hNP : NP.length = 8) (hSR : SR.length = 11) (hCB : CB.length = 10) (hCP : CP.length = 7) (hIT : IT.length = 6) (hHA : HA.length = 5) (hVA : VA.length = 4) :
    sliceL 25 28 ("WID2 ".toList ++ Y ++ '/' :: MO ++ '/' :: DA ++ ' ' :: HO ++ ':' :: MI ++ ':' :: (S2 ++ '.' :: S3) ++ ' ' :: ST ++ ' ' :: CH ++ ' ' :: AU ++ ' ' :: DT ++ ' ' :: NP ++ ' ' :: SR ++ ' ' :: CB ++ ' ' :: CP ++ ' ' :: IT ++ ' ' :: HA ++ ' ' :: VA) = S3 := by
  rw [show ("WID2 ".toList ++ Y ++ '/' :: MO ++ '/' :: DA ++ ' ' :: HO ++ ':' :: MI ++ ':' :: (S2 ++ '.' :: S3) ++ ' ' :: ST ++ ' ' :: CH ++ ' ' :: AU ++ ' ' :: DT ++ ' ' :: NP ++ ' ' :: SR ++ ' ' :: CB ++ ' ' :: CP ++ ' ' :: IT ++ ' ' :: HA ++ ' ' :: VA) =
      ("WID2 ".toList ++ Y ++ '/' :: MO ++ '/' :: DA ++ ' ' :: HO ++ ':' :: MI ++ ':' :: S2 ++ ['.']) ++ ((S3) ++ (' ' :: ST ++ ' ' :: CH ++ ' ' :: AU ++ ' ' :: DT ++ ' ' :: NP ++ ' ' :: SR ++ ' ' :: CB ++ ' ' :: CP ++ ' ' :: IT ++ ' ' :: HA ++ ' ' :: VA)) from by
    simp only [List.append_assoc, List.cons_append, List.singleton_append, List.nil_append,
      List.append_nil]]
  exact slice_pieces
    (by simp only [List.length_append, List.length_cons, List.length_nil, wid2_head_length,
      hY, hMO, hDA, hHO, hMI, hS2, hS3, hST, hCH, hAU, hDT, hNP, hSR, hCB, hCP, hIT, hHA, hVA])
    (by simp only [List.length_append, List.length_cons, List.length_nil, hY, hMO, hDA, hHO, hMI, hS2, hS3, hST, hCH, hAU, hDT, hNP, hSR, hCB, hCP, hIT, hHA, hVA])
    (by norm_num)

theorem wid2_slice_station {Y MO DA HO MI S2 S3 ST CH AU DT NP SR CB CP IT HA VA : List Char}
    (hY : Y.length = 4) (hMO : MO.length = 2) (hDA : DA.length = 2) (hHO : HO.length = 2) (hMI : MI.length = 2) (hS2 : S2.length = 2) (hS3 : S3.length = 3) (hST : ST.length = 5) (hCH : CH.length = 3) (hAU : AU.length = 4) (hDT : DT.length = 3) (hNP : NP.length = 8) (hSR : SR.length = 11) (hCB : CB.length = 10) (hCP : CP.length = 7) (hIT : IT.length = 6) (hHA : HA.length = 5) (hVA : VA.length = 4) :
    sliceL 29 34 ("WID2 ".toList ++ Y ++ '/' :: MO ++ '/' :: DA ++ ' ' :: HO ++ ':' :: MI ++ ':' :: (S2 ++ '.' :: S3) ++ ' ' :: ST ++ ' ' :: CH ++ ' ' :: AU ++ ' ' :: DT ++ ' ' :: NP ++ ' ' :: SR ++ ' ' :: CB ++ ' ' :: CP ++ ' ' :: IT ++ ' ' :: HA ++ ' ' :: VA) = ST := by
  rw [show ("WID2 ".toList ++ Y ++ '/' :: MO ++ '/' :: DA ++ ' ' :: HO ++ ':' :: MI ++ ':' :: (S2 ++ '.' :: S3) ++ ' ' :: ST ++ ' ' :: CH ++ ' ' :: AU ++ ' ' :: DT ++ ' ' :: NP ++ ' ' :: SR ++ ' ' :: CB ++ ' ' :: CP ++ ' ' :: IT ++ ' ' :: HA ++ ' ' :: VA) =
      ("WID2 ".toList ++ Y ++ '/' :: MO ++ '/' :: DA ++ ' ' :: HO ++ ':' :: MI ++ ':' :: S2 ++ '.' :: S3 ++ [' ']) ++ ((ST) ++ (' ' :: CH ++ ' ' :: AU ++ ' ' :: DT ++ ' ' :: NP ++ ' ' :: SR ++ ' ' :: CB ++ ' ' :: CP ++ ' ' :: IT ++ ' ' :: HA ++ ' ' :: VA)) from by
    simp only [List.append_assoc, List.cons_append, List.singleton_append, List.nil_append,
      List.append_nil]]
  exact slice_pieces
    (by simp only [List.length_append, List.length_cons, List.length_nil, wid2_head_length,
      hY, hMO, hDA, hHO, hMI, hS2, hS3, hST, hCH, hAU, hDT, hNP, hSR, hCB, hCP, hIT, hHA, hVA])
    (by simp only [List.length_append, List.length_cons, List.length_nil, hY, hMO, hDA, hHO, hMI, hS2, hS3, hST, hCH, hAU, hDT, hNP, hSR, hCB, hCP, hIT, hHA, hVA])
    (by norm_num)

theorem wid2_slice_channel {Y MO DA HO MI S2 S3 ST CH AU DT NP SR CB CP IT HA VA : List Char}
    (hY : Y.length = 4) (hMO : MO.length = 2) (hDA : DA.length = 2) (hHO : HO.length = 2) (hMI : MI.length = 2) (hS2 : S2.length = 2) (hS3 : S3.length = 3) (hST : ST.length = 5) (hCH : CH.length = 3) (hAU : AU.length = 4) (hDT : DT.length = 3) (hNP : NP.length = 8) (hSR : SR.length = 11) (hCB : CB.length = 10) (hCP : CP.length = 7) (hIT : IT.length = 6) (hHA : HA.length = 5) (hVA : VA.length = 4) :
    sliceL 35 38 ("WID2 ".toList ++ Y ++ '/' :: MO ++ '/' :: DA ++ ' ' :: HO ++ ':' :: MI ++ ':' :: (S2 ++ '.' :: S3) ++ ' ' :: ST ++ ' ' :: CH ++ ' ' :: AU ++ ' ' :: DT ++ ' ' :: NP ++ ' ' :: SR ++ ' ' :: CB ++ ' ' :: CP ++ ' ' :: IT ++ ' ' :: HA ++ ' ' :: VA) = CH := by
  rw [show ("WID2 ".toList ++ Y ++ '/' :: MO ++ '/' :: DA ++ ' ' :: HO ++ ':' :: MI ++ ':' :: (S2 ++ '.' :: S3) ++ ' ' :: ST ++ ' ' :: CH ++ ' ' :: AU ++ ' ' :: DT ++ ' ' :: NP ++ ' ' :: SR ++ ' ' :: CB ++ ' ' :: CP ++ ' ' :: IT ++ ' ' :: HA ++ ' ' :: VA) =
      ("WID2 ".toList ++ Y ++ '/' :: MO ++ '/' :: DA ++ ' ' :: HO ++ ':' :: MI ++ ':' :: S2 ++ '.' :: S3 ++ ' ' :: ST ++ [' ']) ++ ((CH) ++ (' ' :: AU ++ ' ' :: DT ++ ' ' :: NP ++ ' ' :: SR ++ ' ' :: CB ++ ' ' :: CP ++ ' ' :: IT ++ ' ' :: HA ++ ' ' :: VA)) from by
    simp only [List.append_assoc, List.cons_append, List.singleton_append, List.nil_append,
      List.append_nil]]
  exact slice_pieces
    (by simp only [List.length_append, List.length_cons, List.length_nil, wid2_head_length,
      hY, hMO, hDA, hHO, hMI, hS2, hS3, hST, hCH, hAU, hDT, hNP, hSR, hCB, hCP, hIT, hHA, hVA])
    (by simp only [List.length_append, List.length_cons, List.length_nil, hY, hMO, hDA, hHO, hMI, hS2, hS3, hST, hCH, hAU, hDT, hNP, hSR, hCB, hCP, hIT, hHA, hVA])
    (by norm_num)

theorem wid2_slice_auxid {Y MO DA HO MI S2 S3 ST CH AU DT NP SR CB CP IT HA VA : List Char}
    (hY : Y.length = 4) (hMO : MO.length = 2) (hDA : DA.length = 2) (hHO : HO.length = 2) (hMI : MI.length = 2) (hS2 : S2.length = 2) (hS3 : S3.length = 3) (hST : ST.length = 5) (hCH : CH.length = 3) (hAU : AU.length = 4) (hDT : DT.length = 3) (hNP : NP.length = 8) (hSR : SR.length = 11) (hCB : CB.length = 10) (hCP : CP.length = 7) (hIT : IT.length = 6) (hHA : HA.length = 5) (hVA : VA.length = 4) :
    sliceL 39 43 ("WID2 ".toList ++ Y ++ '/' :: MO ++ '/' :: DA ++ ' ' :: HO ++ ':' :: MI ++ ':' :: (S2 ++ '.' :: S3) ++ ' ' :: ST ++ ' ' :: CH ++ ' ' :: AU ++ ' ' :: DT ++ ' ' :: NP ++ ' ' :: SR ++ ' ' :: CB ++ ' ' :: CP ++ ' ' :: IT ++ ' ' :: HA ++ ' ' :: VA) = AU := by
  rw [show ("WID2 ".toList ++ Y ++ '/' :: MO ++ '/' :: DA ++ ' ' :: HO ++ ':' :: MI ++ ':' :: (S2 ++ '.' :: S3) ++ ' ' :: ST ++ ' ' :: CH ++ ' ' :: AU ++ ' ' :: DT ++ ' ' :: NP ++ ' ' :: SR ++ ' ' :: CB ++ ' ' :: CP ++ ' ' :: IT ++ ' ' :: HA ++ ' ' :: VA) =
      ("WID2 ".toList ++ Y ++ '/' :: MO ++ '/' :: DA ++ ' ' :: HO ++ ':' :: MI ++ ':' :: S2 ++ '.' :: S3 ++ ' ' :: ST ++ ' ' :: CH ++ [' ']) ++ ((AU) ++ (' ' :: DT ++ ' ' :: NP ++ ' ' :: SR ++ ' ' :: CB ++ ' ' :: CP ++ ' ' :: IT ++ ' ' :: HA ++ ' ' :: VA)) from by
    simp only [List.append_assoc, List.cons_append, List.singleton_append, List.nil_append,
      List.append_nil]]
  exact slice_pieces
    (by simp only [List.length_append, List.length_cons, List.length_nil, wid2_head_length,
      hY, hMO, hDA, hHO, hMI, hS2, hS3, hST, hCH, hAU, hDT, hNP, hSR, hCB, hCP, hIT, hHA, hVA])
    (by simp only [List.length_append, List.length_cons, List.length_nil, hY, hMO, hDA, hHO, hMI, hS2, hS3, hST, hCH, hAU, hDT, hNP, hSR, hCB, hCP, hIT, hHA, hVA])
    (by norm_num)

theorem wid2_slice_datatype {Y MO DA HO MI S2 S3 ST CH AU DT NP SR CB CP IT HA VA : List Char}
    (hY : Y.length = 4) (hMO : MO.length = 2) (hDA : DA.length = 2) (hHO : HO.length = 2) (hMI : MI.length = 2) (hS2 : S2.length = 2) (hS3 : S3.length = 3) (hST : ST.length = 5) (hCH : CH.length = 3) (hAU : AU.length = 4) (hDT : DT.length = 3) (hNP : NP.length = 8) (hSR : SR.length = 11) (hCB : CB.length = 10) (hCP : CP.length = 7) (hIT : IT.length = 6) (hHA : HA.length = 5) (hVA : VA.length = 4) :
    sliceL 44 48 ("WID2 ".toList ++ Y ++ '/' :: MO ++ '/' :: DA ++ ' ' :: HO ++ ':' :: MI ++ ':' :: (S2 ++ '.' :: S3) ++ ' ' :: ST ++ ' ' :: CH ++ ' ' :: AU ++ ' ' :: DT ++ ' ' :: NP ++ ' ' :: SR ++ ' ' :: CB ++ ' ' :: CP ++ ' ' :: IT ++ ' ' :: HA ++ ' ' :: VA) = DT ++ [' '] := by
  rw [show ("WID2 ".toList ++ Y ++ '/' :: MO ++ '/' :: DA ++ ' ' :: HO ++ ':' :: MI ++ ':' :: (S2 ++ '.' :: S3) ++ ' ' :: ST ++ ' ' :: CH ++ ' ' :: AU ++ ' ' :: DT ++ ' ' :: NP ++ ' ' :: SR ++ ' ' :: CB ++ ' ' :: CP ++ ' ' :: IT ++ ' ' :: HA ++ ' ' :: VA) =
      ("WID2 ".toList ++ Y ++ '/' :: MO ++ '/' :: DA ++ ' ' :: HO ++ ':' :: MI ++ ':' :: S2 ++ '.' :: S3 ++ ' ' :: ST ++ ' ' :: CH ++ ' ' :: AU ++ [' ']) ++ ((DT ++ [' ']) ++ (NP ++ ' ' :: SR ++ ' ' :: CB ++ ' ' :: CP ++ ' ' :: IT ++ ' ' :: HA ++ ' ' :: VA)) from by
    simp only [List.append_assoc, List.cons_append, List.singleton_append, List.nil_append,
      List.append_nil]]
  exact slice_pieces
    (by simp only [List.length_append, List.length_cons, List.length_nil, wid2_head_length,
      hY, hMO, hDA, hHO, hMI, hS2, hS3, hST, hCH, hAU, hDT, hNP, hSR, hCB, hCP, hIT, hHA, hVA])
    (by simp only [List.length_append, List.length_cons, List.length_nil, hY, hMO, hDA, hHO, hMI, hS2, hS3, hST, hCH, hAU, hDT, hNP, hSR, hCB, hCP, hIT, hHA, hVA])
    (by norm_num)

theorem wid2_slice_npts {Y MO DA HO MI S2 S3 ST CH AU DT NP SR CB CP IT HA VA : List Char}
    (hY : Y.length = 4) (hMO : MO.length = 2) (hDA : DA.length = 2) (hHO : HO.length = 2) (hMI : MI.length = 2) (hS2 : S2.length = 2) (hS3 : S3.length = 3) (hST : ST.length = 5) (hCH : CH.length = 3) (hAU : AU.length = 4) (hDT : DT.length = 3) (hNP : NP.length = 8) (hSR : SR.length = 11) (hCB : CB.length = 10) (hCP : CP.length = 7) (hIT : IT.length = 6) (hHA : HA.length = 5) (hVA : VA.length = 4) :
    sliceL 48 56 ("WID2 ".toList ++ Y ++ '/' :: MO ++ '/' :: DA ++ ' ' :: HO ++ ':' :: MI ++ ':' :: (S2 ++ '.' :: S3) ++ ' ' :: ST ++ ' ' :: CH ++ ' ' :: AU ++ ' ' :: DT ++ ' ' :: NP ++ ' ' :: SR ++ ' ' :: CB ++ ' ' :: CP ++ ' ' :: IT ++ ' ' :: HA ++ ' ' :: VA) = NP := by
  rw [show ("WID2 ".toList ++ Y ++ '/' :: MO ++ '/' :: DA ++ ' ' :: HO ++ ':' :: MI ++ ':' :: (S2 ++ '.' :: S3) ++ ' ' :: ST ++ ' ' :: CH ++ ' ' :: AU ++ ' ' :: DT ++ ' ' :: NP ++ ' ' :: SR ++ ' ' :: CB ++ ' ' :: CP ++ ' ' :: IT ++ ' ' :: HA ++ ' ' :: VA) =
      ("WID2 ".toList ++ Y ++ '/' :: MO ++ '/' :: DA ++ ' ' :: HO ++ ':' :: MI ++ ':' :: S2 ++ '.' :: S3 ++ ' ' :: ST ++ ' ' :: CH ++ ' ' :: AU ++ ' ' :: DT ++ [' ']) ++ ((NP) ++ (' ' :: SR ++ ' ' :: CB ++ ' ' :: CP ++ ' ' :: IT ++ ' ' :: HA ++ ' ' :: VA)) from by
    simp only [List.append_assoc, List.cons_append, List.singleton_append, List.nil_append,
      List.append_nil]]
  exact slice_pieces
    (by simp only [List.length_append, List.length_cons, List.length_nil, wid2_head_length,
      hY, hMO, hDA, hHO, hMI, hS2, hS3, hST, hCH, hAU, hDT, hNP, hSR, hCB, hCP, hIT, hHA, hVA])
    (by simp only [List.length_append, List.length_cons, List.length_nil, hY, hMO, hDA, hHO, hMI, hS2, hS3, hST, hCH, hAU, hDT, hNP, hSR, hCB, hCP, hIT, hHA, hVA])
    (by norm_num)

theorem wid2_slice_sr {Y MO DA HO MI S2 S3 ST CH AU DT NP SR CB CP IT HA VA : List Char}
    (hY : Y.length = 4) (hMO : MO.length = 2) (hDA : DA.length = 2) (hHO : HO.length = 2) (hMI : MI.length = 2) (hS2 : S2.length = 2) (hS3 : S3.length = 3) (hST : ST.length = 5) (hCH : CH.length = 3) (hAU : AU.length = 4) (hDT : DT.length = 3) (hNP : NP.length = 8) (hSR : SR.length = 11) (hCB : CB.length = 10) (hCP : CP.length = 7) (hIT : IT.length = 6) (hHA : HA.length = 5) (hVA : VA.length = 4) :
    sliceL 57 68 ("WID2 ".toList ++ Y ++ '/' :: MO ++ '/' :: DA ++ ' ' :: HO ++ ':' :: MI ++ ':' :: (S2 ++ '.' :: S3) ++ ' ' :: ST ++ ' ' :: CH ++ ' ' :: AU ++ ' ' :: DT ++ ' ' :: NP ++ ' ' :: SR ++ ' ' :: CB ++ ' ' :: CP ++ ' ' :: IT ++ ' ' :: HA ++ ' ' :: VA) = SR := by
  rw [show ("WID2 ".toList ++ Y ++ '/' :: MO ++ '/' :: DA ++ ' ' :: HO ++ ':' :: MI ++ ':' :: (S2 ++ '.' :: S3) ++ ' ' :: ST ++ ' ' :: CH ++ ' ' :: AU ++ ' ' :: DT ++ ' ' :: NP ++ ' ' :: SR ++ ' ' :: CB ++ ' ' :: CP ++ ' ' :: IT ++ ' ' :: HA ++ ' ' :: VA) =
      ("WID2 ".toList ++ Y ++ '/' :: MO ++ '/' :: DA ++ ' ' :: HO ++ ':' :: MI ++ ':' :: S2 ++ '.' :: S3 ++ ' ' :: ST ++ ' ' :: CH ++ ' ' :: AU ++ ' ' :: DT ++ ' ' :: NP ++ [' ']) ++ ((SR) ++ (' ' :: CB ++ ' ' :: CP ++ ' ' :: IT ++ ' ' :: HA ++ ' ' :: VA)) from by
    simp only [List.append_assoc, List.cons_append, List.singleton_append, List.nil_append,
      List.append_nil]]
  exact slice_pieces
    (by simp only [List.length_append, List.length_cons, List.length_nil, wid2_head_length,
      hY, hMO, hDA, hHO, hMI, hS2, hS3, hST, hCH, hAU, hDT, hNP, hSR, hCB, hCP, hIT, hHA, hVA])
    (by simp only [List.length_append, List.length_cons, List.length_nil, hY, hMO, hDA, hHO, hMI, hS2, hS3, hST, hCH, hAU, hDT, hNP, hSR, hCB, hCP, hIT, hHA, hVA])
    (by norm_num)

theorem wid2_slice_calib {Y MO DA HO MI S2 S3 ST CH AU DT NP SR CB CP IT HA VA : List Char}
    (hY : Y.length = 4) (hMO : MO.length = 2) (hDA : DA.length = 2) (hHO : HO.length = 2) (hMI : MI.length = 2) (hS2 : S2.length = 2) (hS3 : S3.length = 3) (hST : ST.length = 5) (hCH : CH.length = 3) (hAU : AU.length = 4) (hDT : DT.length = 3) (hNP : NP.length = 8) (hSR : SR.length = 11) (hCB : CB.length = 10) (hCP : CP.length = 7) (hIT : IT.length = 6) (hHA : HA.length = 5) (hVA : VA.length = 4) :
    sliceL 69 79 ("WID2 ".toList ++ Y ++ '/' :: MO ++ '/' :: DA ++ ' ' :: HO ++ ':' :: MI ++ ':' :: (S2 ++ '.' :: S3) ++ ' ' :: ST ++ ' ' :: CH ++ ' ' :: AU ++ ' ' :: DT ++ ' ' :: NP ++ ' ' :: SR ++ ' ' :: CB ++ ' ' :: CP ++ ' ' :: IT ++ ' ' :: HA ++ ' ' :: VA) = CB := by
  rw [show ("WID2 ".toList ++ Y ++ '/' :: MO ++ '/' :: DA ++ ' ' :: HO ++ ':' :: MI ++ ':' :: (S2 ++ '.' :: S3) ++ ' ' :: ST ++ ' ' :: CH ++ ' ' :: AU ++ ' ' :: DT ++ ' ' :: NP ++ ' ' :: SR ++ ' ' :: CB ++ ' ' :: CP ++ ' ' :: IT ++ ' ' :: HA ++ ' ' :: VA) =
      ("WID2 ".toList ++ Y ++ '/' :: MO ++ '/' :: DA ++ ' ' :: HO ++ ':' :: MI ++ ':' :: S2 ++ '.' :: S3 ++ ' ' :: ST ++ ' ' :: CH ++ ' ' :: AU ++ ' ' :: DT ++ ' ' :: NP ++ ' ' :: SR ++ [' ']) ++ ((CB) ++ (' ' :: CP ++ ' ' :: IT ++ ' ' :: HA ++ ' ' :: VA)) from by
    simp only [List.append_assoc, List.cons_append, List.singleton_append, List.nil_append,
      List.append_nil]]
  exact slice_pieces
    (by simp only [List.length_append, List.length_cons, List.length_nil, wid2_head_length,
      hY, hMO, hDA, hHO, hMI, hS2, hS3, hST, hCH, hAU, hDT, hNP, hSR, hCB, hCP, hIT, hHA, hVA])
    (by simp only [List.length_append, List.length_cons, List.length_nil, hY, hMO, hDA, hHO, hMI, hS2, hS3, hST, hCH, hAU, hDT, hNP, hSR, hCB, hCP, hIT, hHA, hVA])
    (by norm_num)

theorem wid2_slice_calper {Y MO DA HO MI S2 S3 ST CH AU DT NP SR CB CP IT HA VA : List Char}
    (hY : Y.length = 4) (hMO : MO.length = 2) (hDA : DA.length = 2) (hHO : HO.length = 2) (hMI : MI.length = 2) (hS2 : S2.length = 2) (hS3 : S3.length = 3) (hST : ST.length = 5) (hCH : CH.length = 3) (hAU : AU.length = 4) (hDT : DT.length = 3) (hNP : NP.length = 8) (hSR : SR.length = 11) (hCB : CB.length = 10) (hCP : CP.length = 7) (hIT : IT.length = 6) (hHA : HA.length = 5) (hVA : VA.length = 4) :
    sliceL 80 87 ("WID2 ".toList ++ Y ++ '/' :: MO ++ '/' :: DA ++ ' ' :: HO ++ ':' :: MI ++ ':' :: (S2 ++ '.' :: S3) ++ ' ' :: ST ++ ' ' :: CH ++ ' ' :: AU ++ ' ' :: DT ++ ' ' :: NP ++ ' ' :: SR ++ ' ' :: CB ++ ' ' :: CP ++ ' ' :: IT ++ ' ' :: HA ++ ' ' :: VA) = CP := by
  rw [show ("WID2 ".toList ++ Y ++ '/' :: MO ++ '/' :: DA ++ ' ' :: HO ++ ':' :: MI ++ ':' :: (S2 ++ '.' :: S3) ++ ' ' :: ST ++ ' ' :: CH ++ ' ' :: AU ++ ' ' :: DT ++ ' ' :: NP ++ ' ' :: SR ++ ' ' :: CB ++ ' ' :: CP ++ ' ' :: IT ++ ' ' :: HA ++ ' ' :: VA) =
      ("WID2 ".toList ++ Y ++ '/' :: MO ++ '/' :: DA ++ ' ' :: HO ++ ':' :: MI ++ ':' :: S2 ++ '.' :: S3 ++ ' ' :: ST ++ ' ' :: CH ++ ' ' :: AU ++ ' ' :: DT ++ ' ' :: NP ++ ' ' :: SR ++ ' ' :: CB ++ [' ']) ++ ((CP) ++ (' ' :: IT ++ ' ' :: HA ++ ' ' :: VA)) from by
    simp only [List.append_assoc, List.cons_append, List.singleton_append, List.nil_append,
      List.append_nil]]
  exact slice_pieces
    (by simp only [List.length_append, List.length_cons, List.length_nil, wid2_head_length,
      hY, hMO, hDA, hHO, hMI, hS2, hS3, hST, hCH, hAU, hDT, hNP, hSR, hCB, hCP, hIT, hHA, hVA])
    (by simp only [List.length_append, List.length_cons, List.length_nil, hY, hMO, hDA, hHO, hMI, hS2, hS3, hST, hCH, hAU, hDT, hNP, hSR, hCB, hCP, hIT, hHA, hVA])
    (by norm_num)

theorem wid2_slice_instype {Y MO DA HO MI S2 S3 ST CH AU DT NP SR CB CP IT HA VA : List Char}
    (hY : Y.length = 4) (hMO : MO.length = 2) (hDA : DA.length = 2) (hHO : HO.length = 2) (hMI : MI.length = 2) (hS2 : S2.length = 2) (hS3 : S3.length = 3) (hST : ST.length = 5) (hCH : CH.length = 3) (hAU : AU.length = 4) (hDT : DT.length = 3) (hNP : NP.length = 8) (hSR : SR.length = 11) (hCB : CB.length = 10) (hCP : CP.length = 7) (hIT : IT.length = 6) (hHA : HA.length = 5) (hVA : VA.length = 4) :
    sliceL 88 94 ("WID2 ".toList ++ Y ++ '/' :: MO ++ '/' :: DA ++ ' ' :: HO ++ ':' :: MI ++ ':' :: (S2 ++ '.' :: S3) ++ ' ' :: ST ++ ' ' :: CH ++ ' ' :: AU ++ ' ' :: DT ++ ' ' :: NP ++ ' ' :: SR ++ ' ' :: CB ++ ' ' :: CP ++ ' ' :: IT ++ ' ' :: HA ++ ' ' :: VA) = IT := by
  rw [show ("WID2 ".toList ++ Y ++ '/' :: MO ++ '/' :: DA ++ ' ' :: HO ++ ':' :: MI ++ ':' :: (S2 ++ '.' :: S3) ++ ' ' :: ST ++ ' ' :: CH ++ ' ' :: AU ++ ' ' :: DT ++ ' ' :: NP ++ ' ' :: SR ++ ' ' :: CB ++ ' ' :: CP ++ ' ' :: IT ++ ' ' :: HA ++ ' ' :: VA) =
      ("WID2 ".toList ++ Y ++ '/' :: MO ++ '/' :: DA ++ ' ' :: HO ++ ':' :: MI ++ ':' :: S2 ++ '.' :: S3 ++ ' ' :: ST ++ ' ' :: CH ++ ' ' :: AU ++ ' ' :: DT ++ ' ' :: NP ++ ' ' :: SR ++ ' ' :: CB ++ ' ' :: CP ++ [' ']) ++ ((IT) ++ (' ' :: HA ++ ' ' :: VA)) from by
    simp only [List.append_assoc, List.cons_append, List.singleton_append, List.nil_append,
      List.append_nil]]
  exact slice_pieces
    (by simp only [List.length_append, List.length_cons, List.length_nil, wid2_head_length,
      hY, hMO, hDA, hHO, hMI, hS2, hS3, hST, hCH, hAU, hDT, hNP, hSR, hCB, hCP, hIT, hHA, hVA])
    (by simp only [List.length_append, List.length_cons, List.length_nil, hY, hMO, hDA, hHO, hMI, hS2, hS3, hST, hCH, hAU, hDT, hNP, hSR, hCB, hCP, hIT, hHA, hVA])
    (by norm_num)

theorem wid2_slice_hang {Y MO DA HO MI S2 S3 ST CH AU DT NP SR CB CP IT HA VA : List Char}
    (hY : Y.length = 4) (hMO : MO.length = 2) (hDA : DA.length = 2) (hHO : HO.length = 2) (hMI : MI.length = 2) (hS2 : S2.length = 2) (hS3 : S3.length = 3) (hST : ST.length = 5) (hCH : CH.length = 3) (hAU : AU.length = 4) (hDT : DT.length = 3) (hNP : NP.length = 8) (hSR : SR.length = 11) (hCB : CB.length = 10) (hCP : CP.length = 7) (hIT : IT.length = 6) (hHA : HA.length = 5) (hVA : VA.length = 4) :
    sliceL 95 100 ("WID2 ".toList ++ Y ++ '/' :: MO ++ '/' :: DA ++ ' ' :: HO ++ ':' :: MI ++ ':' :: (S2 ++ '.' :: S3) ++ ' ' :: ST ++ ' ' :: CH ++ ' ' :: AU ++ ' ' :: DT ++ ' ' :: NP ++ ' ' :: SR ++ ' ' :: CB ++ ' ' :: CP ++ ' ' :: IT ++ ' ' :: HA ++ ' ' :: VA) = HA := by
  rw [show ("WID2 ".toList ++ Y ++ '/' :: MO ++ '/' :: DA ++ ' ' :: HO ++ ':' :: MI ++ ':' :: (S2 ++ '.' :: S3) ++ ' ' :: ST ++ ' ' :: CH ++ ' ' :: AU ++ ' ' :: DT ++ ' ' :: NP ++ ' ' :: SR ++ ' ' :: CB ++ ' ' :: CP ++ ' ' :: IT ++ ' ' :: HA ++ ' ' :: VA) =
      ("WID2 ".toList ++ Y ++ '/' :: MO ++ '/' :: DA ++ ' ' :: HO ++ ':' :: MI ++ ':' :: S2 ++ '.' :: S3 ++ ' ' :: ST ++ ' ' :: CH ++ ' ' :: AU ++ ' ' :: DT ++ ' ' :: NP ++ ' ' :: SR ++ ' ' :: CB ++ ' ' :: CP ++ ' ' :: IT ++ [' ']) ++ ((HA) ++ (' ' :: VA)) from by
    simp only [List.append_assoc, List.cons_append, List.singleton_append, List.nil_append,
      List.append_nil]]
  exact slice_pieces
    (by simp only [List.length_append, List.length_cons, List.length_nil, wid2_head_length,
      hY, hMO, hDA, hHO, hMI, hS2, hS3, hST, hCH, hAU, hDT, hNP, hSR, hCB, hCP, hIT, hHA, hVA])
    (by simp only [List.length_append, List.length_cons, List.length_nil, hY, hMO, hDA, hHO, hMI, hS2, hS3, hST, hCH, hAU, hDT, hNP, hSR, hCB, hCP, hIT, hHA, hVA])
    (by norm_num)

theorem wid2_slice_vang {Y MO DA HO MI S2 S3 ST CH AU DT NP SR CB CP IT HA VA : List Char}
    (hY : Y.length = 4) (hMO : MO.length = 2) (hDA : DA.length = 2) (hHO : HO.length = 2) (hMI : MI.length = 2) (hS2 : S2.length = 2) (hS3 : S3.length = 3) (hST : ST.length = 5) (hCH : CH.length = 3) (hAU : AU.length = 4) (hDT : DT.length = 3) (hNP : NP.length = 8) (hSR : SR.length = 11) (hCB : CB.length = 10) (hCP : CP.length = 7) (hIT : IT.length = 6) (hHA : HA.length = 5) (hVA : VA.length = 4) :
    sliceL 101 105 ("WID2 ".toList ++ Y ++ '/' :: MO ++ '/' :: DA ++ ' ' :: HO ++ ':' :: MI ++ ':' :: (S2 ++ '.' :: S3) ++ ' ' :: ST ++ ' ' :: CH ++ ' ' :: AU ++ ' ' :: DT ++ ' ' :: NP ++ ' ' :: SR ++ ' ' :: CB ++ ' ' :: CP ++ ' ' :: IT ++ ' ' :: HA ++ ' ' :: VA) = VA := by
  rw [show ("WID2 ".toList ++ Y ++ '/' :: MO ++ '/' :: DA ++ ' ' :: HO ++ ':' :: MI ++ ':' :: (S2 ++ '.' :: S3) ++ ' ' :: ST ++ ' ' :: CH ++ ' ' :: AU ++ ' ' :: DT ++ ' ' :: NP ++ ' ' :: SR ++ ' ' :: CB ++ ' ' :: CP ++ ' ' :: IT ++ ' ' :: HA ++ ' ' :: VA) =
      ("WID2 ".toList ++ Y ++ '/' :: MO ++ '/' :: DA ++ ' ' :: HO ++ ':' :: MI ++ ':' :: S2 ++ '.' :: S3 ++ ' ' :: ST ++ ' ' :: CH ++ ' ' :: AU ++ ' ' :: DT ++ ' ' :: NP ++ ' ' :: SR ++ ' ' :: CB ++ ' ' :: CP ++ ' ' :: IT ++ ' ' :: HA ++ [' ']) ++ ((VA) ++ (([] : List Char))) from by
    simp only [List.append_assoc, List.cons_append, List.singleton_append, List.nil_append,
      List.append_nil]]
  exact slice_pieces
    (by simp only [List.length_append, List.length_cons, List.length_nil, wid2_head_length,
      hY, hMO, hDA, hHO, hMI, hS2, hS3, hST, hCH, hAU, hDT, hNP, hSR, hCB, hCP, hIT, hHA, hVA])
    (by simp only [List.length_append, List.length_cons, List.length_nil, hY, hMO, hDA, hHO, hMI, hS2, hS3, hST, hCH, hAU, hDT, hNP, hSR, hCB, hCP, hIT, hHA, hVA])
    (by norm_num)

/-! ### Claim theorems -/

/-- Claim C2: `verifyChecksum` raises `ChksumError`, carrying both values,
exactly when the absolute values of the computed and file checksums
differ; when the absolute values agree but the values differ (a sign flip)
it returns successfully with the non-fatal legacy warning; when the values
agree it returns successfully and silently. -/
theorem claim_C2 (chksum_data chksum_file : Int) :
    ((verifyChecksum chksum_data 2
        [String.mk ("CHK2 ".toList ++ renderInt chksum_file)]).1 =
      .error (.chksumError chksum_data chksum_file) ↔
        chksum_data.natAbs ≠ chksum_file.natAbs) ∧
    (chksum_data.natAbs = chksum_file.natAbs → chksum_data ≠ chksum_file →
      (verifyChecksum chksum_data 2
        [String.mk ("CHK2 ".toList ++ renderInt chksum_file)]).1 = .ok .warned) ∧
    (chksum_data = chksum_file →
      (verifyChecksum chksum_data 2
        [String.mk ("CHK2 ".toList ++ renderInt chksum_file)]).1 = .ok .silent) := by
  have hl : (verifyChecksum chksum_data 2
      [String.mk ("CHK2 ".toList ++ renderInt chksum_file)]).1 =
      compareChk chksum_data chksum_file := by
    simp only [verifyChecksum]
    have hscan : scanCHK ("CHK".toList ++ renderNat 2)
        [String.mk ("CHK2 ".toList ++ renderInt chksum_file)] =
        (some (String.mk ("CHK2 ".toList ++ renderInt chksum_file)), []) := by
      unfold scanCHK
      rw [if_pos (by rfl)]
    rw [hscan]
    have hcp : chkParse (String.mk ("CHK2 ".toList ++ renderInt chksum_file)).toList =
        .ok chksum_file := chkParse_chk2 chksum_file
    simp only [hcp]
  rw [hl]
  unfold compareChk
  split_ifs with h1 h2 <;> refine ⟨?_, ?_, ?_⟩ <;> simp_all

/-- Claim C2 witness: a file checksum of `-1234` against a computed
checksum of `1234` passes with the legacy warning. -/
theorem claim_C2_witness :
    (verifyChecksum 1234 2 [String.mk ("CHK2 ".toList ++ renderInt (-1234))]).1 =
      .ok .warned :=
  (claim_C2 1234 (-1234)).2.1 (by decide) (by decide)

/-- Claim C3 counterexample: a truncated line source (the external
decompressor reports 3 of the requested 5 samples) and a corrupt encoding
(it reports 9) raise the very same `GSEUtiError` value, so the two failure
kinds are not distinguishable by the caller, and no error type named
`TruncatedInputError` or `DecodedLengthMismatch` exists. -/
theorem claim_C3_counterexample :
    (uncompress_CM6 ["line"] 5 3 [0, 0, 0, 0, 0] 1).1 =
      .error (.gseUtiError "Mismatching length in lib.decomp_6b") ∧
    (uncompress_CM6 ["line"] 5 9 [0, 0, 0, 0, 0] 1).1 =
      .error (.gseUtiError "Mismatching length in lib.decomp_6b") ∧
    (uncompress_CM6 ["line"] 5 3 [0, 0, 0, 0, 0] 1).1 =
      (uncompress_CM6 ["line"] 5 9 [0, 0, 0, 0, 0] 1).1 := by
  decide

/-- Claim C3 (amended): for `npts = N > 0`, any reported decode count
different from `N` (truncation included) fails with the single error
`GSEUtiError "Mismatching length in lib.decomp_6b"`, and a successful
decode always returns exactly `N` samples, never a short buffer. -/
theorem claim_C3 (ls : List String) (n_samps report : Int) (raw : List Int) (k : Nat)
    (hn : 0 < n_samps) (hraw : (raw.length : Int) = n_samps) :
    (report ≠ n_samps →
      (uncompress_CM6 ls n_samps report raw k).1 =
        .error (.gseUtiError "Mismatching length in lib.decomp_6b")) ∧
    (∀ out, (uncompress_CM6 ls n_samps report raw k).1 = .ok out →
      report = n_samps ∧ (out.length : Int) = n_samps) := by
  unfold uncompress_CM6
  rw [if_neg (by omega), if_neg (by omega)]
  by_cases hr : report = n_samps
  · rw [if_neg (by simp [hr])]
    refine ⟨fun hcon => absurd hr hcon, fun out hout => ⟨hr, ?_⟩⟩
    simp only at hout
    injection hout with hout
    rw [← hout, rem_2nd_diff_length]
    exact hraw
  · rw [if_pos hr]
    exact ⟨fun _ => rfl, fun out hout => by simp at hout⟩

/-- Claim C3 witness: requesting 2 samples while the decompressor reports
3 raises the `GSEUtiError`. -/
theorem claim_C3_witness :
    (uncompress_CM6 [] 2 3 [0, 0] 0).1 =
      .error (.gseUtiError "Mismatching length in lib.decomp_6b") :=
  (claim_C3 [] 2 3 [0, 0] 0 (by decide) (by decide)).1 (by decide)

/-- Claim C6 counterexample: writing an empty buffer does not produce a
file at all; `data.max()` on the empty array raises `ValueError` before
anything is written. -/
theorem claim_C6_counterexample :
    (write hdEx [] false 0 [] 0 0).err = some (.valueError npMaxEmptyMsg) ∧
    (write hdEx [] false 0 [] 0 0).out = [] := by
  decide

/-- Claim C6 (amended): decoding with `npts = 0` yields the empty buffer
without consulting the external decompression or difference machinery (the
result is the same whatever those routines would report) and without
touching the stream; writing an empty buffer, however, fails with the
numpy `ValueError` from `max()` on an empty array, emitting nothing. -/
theorem claim_C6 :
    (∀ (ls : List String) (report : Int) (raw : List Int) (k : Nat),
      uncompress_CM6 ls 0 report raw k = (.ok [], ls)) ∧
    (∀ (hd : HeadDict) (inplace : Bool) (chksum : Int) (comp : List Char)
        (ierr : Int) (c0 : Nat),
      (write hd [] inplace chksum comp ierr c0).err = some (.valueError npMaxEmptyMsg) ∧
      (write hd [] inplace chksum comp ierr c0).out = []) := by
  constructor
  · intro ls report raw k
    simp [uncompress_CM6]
  · intro hd inplace chksum comp ierr c0
    constructor <;> simp [write, npMax]

/-- Claim C5 counterexample: a successful write whose encoded stream is
exactly 80 bytes (with 40 samples) emits two lines between `DAT2` and the
trailer, the second of them empty, instead of the claimed single fully
padded 80-character line. -/
theorem claim_C5_counterexample :
    (List.replicate 80 'A').length = 80 ∧
    (write hdEx (List.replicate 40 1) false 0 (List.replicate 80 'A') 0 0).err = none ∧
    (write hdEx (List.replicate 40 1) false 0 (List.replicate 80 'A') 0 0).out =
      [writeHeader (fillDefaults hdEx), "DAT2", String.mk (List.replicate 80 'A'), "",
       String.mk ("CHK2 ".toList ++ padL 8 ' ' (renderInt 0)), ""] := by
  refine ⟨by decide, by decide, ?_⟩
  decide

/-- Claim C5 (amended): a successful write emits the header line, `DAT2`,
then `min((B/80 + 1)*80, 4*n)/80` data lines for an encoded stream of `B`
bytes over `n` samples (that is, `B/80 + 1` lines unless clamped by the
scratch buffer): each line wholly inside the stream has exactly 80
characters, the line containing the end of the stream carries the
remaining `B mod 80` characters with its NUL padding stripped rather than
emitted, any later line is empty, and the block is followed by the
`CHK2 %8ld` trailer line and a blank line. -/
theorem claim_C5 (hd : HeadDict) (data : List Int) (inplace : Bool) (chksum : Int)
    (comp : List Char) (ierr : Int) (c0 : Nat)
    (hok : (write hd data inplace chksum comp ierr c0).err = none)
    (hnn : ∀ c ∈ comp, ¬ c = Char.ofNat 0) :
    ∃ dl, (write hd data inplace chksum comp ierr c0).out =
        writeHeader (fillDefaults hd) :: "DAT2" ::
          (dl ++ [String.mk ("CHK2 ".toList ++ padL 8 ' ' (renderInt chksum)), ""]) ∧
      dl.length = (min ((comp.length / 80 + 1) * 80) (4 * data.length)) / 80 ∧
      ∀ i, (hi : i < dl.length) →
        (dl.get ⟨i, hi⟩).length = min 80 (comp.length - 80 * i) := by
  simp only [write] at hok ⊢
  cases hnp : npMax data with
  | none =>
    rw [hnp] at hok
    simp at hok
  | some mx =>
    rw [hnp] at hok
    dsimp only at hok ⊢
    split_ifs at hok ⊢ with h1 h2 h3 h4 <;> try simp at hok
    refine ⟨(List.range ((min ((comp.length / 80 + 1) * 80) (4 * data.length)) / 80)).map
      (fun i => String.mk (stripTrailingNulls (sliceL (80 * i) (80 * i + 80)
        (comp ++ List.replicate (4 * data.length - comp.length) (Char.ofNat 0))))),
      by simp, by simp, ?_⟩
    intro i hi
    have hiS : i < (min ((comp.length / 80 + 1) * 80) (4 * data.length)) / 80 := by
      simpa using hi
    have hB4 : comp.length ≤ 4 * data.length := by omega
    have hdvd : (min ((comp.length / 80 + 1) * 80) (4 * data.length)) % 80 = 0 := by omega
    have hmin : min ((comp.length / 80 + 1) * 80) (4 * data.length) ≤ 4 * data.length :=
      min_le_right _ _
    have hstep : 80 * i + 80 ≤ 4 * data.length := by omega
    rw [List.get_eq_getElem]
    simp only [List.getElem_map, List.getElem_range, Fin.val_mk]
    exact chunkLen hB4 hstep hnn

/-- Claim C5 witness: with 40 samples and a 100-byte encoded stream the
write succeeds and emits two data lines, of 80 and of 20 characters. -/
theorem claim_C5_witness :
    (∀ c ∈ List.replicate 100 'B', ¬ c = Char.ofNat 0) ∧
    ∃ dl, (write hdEx (List.replicate 40 1) false (-405) (List.replicate 100 'B') 0 0).out =
        writeHeader (fillDefaults hdEx) :: "DAT2" ::
          (dl ++ [String.mk ("CHK2 ".toList ++ padL 8 ' ' (renderInt (-405))), ""]) ∧
      dl.length = 2 ∧
      ∀ i, (hi : i < dl.length) →
        (dl.get ⟨i, hi⟩).length = min 80 ((List.replicate 100 'B').length - 80 * i) :=
  ⟨by decide,
   claim_C5 hdEx (List.replicate 40 1) false (-405) (List.replicate 100 'B') 0 0
     (by decide) (by decide)⟩

/-- Claim C8 counterexample: a write call changes the module-level `count`
global (from 7 to 80 here), so module state is written during encoding. -/
theorem claim_C8_counterexample :
    (write hdEx (List.replicate 40 1) false 7 (List.replicate 80 'A') 0 7).countAfter = 80 ∧
    (write hdEx (List.replicate 40 1) false 7 (List.replicate 80 'A') 0 7).countAfter ≠ 7 := by
  decide

/-- Claim C8 (amended): `write` does go through the module-level mutable
`count` (resetting it to 0 before compressing), but because of that reset
the error, the emitted output and the header mutation of a `write` call do
not depend on the value the global held before the call. -/
theorem claim_C8 (hd : HeadDict) (data : List Int) (inplace : Bool) (chksum : Int)
    (comp : List Char) (ierr : Int) (c1 c2 : Nat) :
    ((write hd data inplace chksum comp ierr c1).err,
     (write hd data inplace chksum comp ierr c1).out,
     (write hd data inplace chksum comp ierr c1).headdictAfter) =
    ((write hd data inplace chksum comp ierr c2).err,
     (write hd data inplace chksum comp ierr c2).out,
     (write hd data inplace chksum comp ierr c2).headdictAfter) := by
  simp only [write]
  cases npMax data with
  | none => rfl
  | some mx =>
    dsimp only
    split_ifs <;> rfl

/-- Claim C9 counterexample: the file-type sniff moves the stream from
position 0 forward to 4 and then back to 0, so its position sequence is
not monotone. -/
theorem claim_C9_counterexample :
    (isGse2 ⟨"WID2 rest".toList, 0⟩).posTrace = [0, 4, 0] ∧
    ∃ i a b, (isGse2 ⟨"WID2 rest".toList, 0⟩).posTrace.get? i = some a ∧
      (isGse2 ⟨"WID2 rest".toList, 0⟩).posTrace.get? (i + 1) = some b ∧ b < a :=
  ⟨by decide, 1, 4, 0, by decide, by decide, by decide⟩

/-- Claim C9 (amended): the sniff peeks four bytes and seeks back,
restoring the position it started from (a backward move); the header
search, the data decode and the checksum scan are genuinely forward-only,
leaving a suffix of the line stream. -/
theorem claim_C9 :
    (∀ f : CFile, (isGse2 f).file.pos = f.pos) ∧
    (∀ ls : List String, (readHeader ls).2 <:+ ls) ∧
    (∀ (ls : List String) (n r : Int) (raw : List Int) (k : Nat),
      (uncompress_CM6 ls n r raw k).2 <:+ ls) ∧
    (∀ (d : Int) (v : Nat) (ls : List String), (verifyChecksum d v ls).2 <:+ ls) := by
  refine ⟨?_, readHeader_suffix, ?_, ?_⟩
  · intro f
    simp only [isGse2, fileRead, fileSeek]
    split <;> rfl
  · intro ls n r raw k
    unfold uncompress_CM6
    split_ifs <;> first
      | exact List.suffix_refl ls
      | exact List.drop_suffix k ls
  · intro d v ls
    have hs := scanCHK_suffix ("CHK".toList ++ renderNat v) ls
    simp only [verifyChecksum]
    rcases hsc : scanCHK ("CHK".toList ++ renderNat v) ls with ⟨o, rest⟩
    rw [hsc] at hs
    cases o with
    | none => exact hs
    | some line =>
      rcases hcp : chkParse line.toList with e | fil <;> simp only [hcp] <;> exact hs

/-- Claim C10 counterexample: a write call that fails the overflow guard
leaves the caller's header dictionary untouched, with its missing optional
entries still missing, so not every write call inserts the defaults. -/
theorem claim_C10_counterexample :
    (write hdEx [2 ^ 26 + 1] false 0 [] 0 0).err = some (.overflowError overflowMsg) ∧
    (write hdEx [2 ^ 26 + 1] false 0 [] 0 0).headdictAfter = hdEx ∧
    hdEx.calib = none ∧ hdEx.gse2 = none := by
  decide

/-- Claim C10 (amended): every write call that reaches the default-filling
step (in particular every successful one) mutates the caller's header
dictionary in place, inserting `calib`, the `gse2` sub-dictionary and its
`auxid`/`datatype`/`calper`/`instype`/`hang`/`vang` entries with their
defaults when missing and keeping them when present, regardless of the
`inplace` flag. -/
theorem claim_C10 (hd : HeadDict) (data : List Int) (inplace : Bool) (chksum : Int)
    (comp : List Char) (ierr : Int) (c0 : Nat)
    (hok : (write hd data inplace chksum comp ierr c0).err = none) :
    (write hd data inplace chksum comp ierr c0).headdictAfter =
      ⟨hd.starttime, hd.station, hd.channel, hd.npts, hd.sampling_rate,
       some (hd.calib.getD ⟨1, 0⟩),
       some ⟨some ((hd.gse2.getD emptyGse2).auxid.getD ""),
             some ((hd.gse2.getD emptyGse2).datatype.getD "CM6"),
             some ((hd.gse2.getD emptyGse2).calper.getD ⟨1, 0⟩),
             some ((hd.gse2.getD emptyGse2).instype.getD ""),
             some ((hd.gse2.getD emptyGse2).hang.getD ⟨-1, 0⟩),
             some ((hd.gse2.getD emptyGse2).vang.getD ⟨-1, 0⟩)⟩⟩ := by
  simp only [write] at hok ⊢
  cases hnp : npMax data with
  | none =>
    rw [hnp] at hok
    simp at hok
  | some mx =>
    rw [hnp] at hok
    dsimp only at hok ⊢
    split_ifs at hok ⊢ <;> simp_all [optFill, fillGse2]

/-- Claim C10 witness: a successful write on a dictionary with no optional
entries inserts all the defaults. -/
theorem claim_C10_witness :
    (write hdEx (List.replicate 40 1) false 7 (List.replicate 80 'A') 0 0).headdictAfter =
      ⟨hdEx.starttime, hdEx.station, hdEx.channel, hdEx.npts, hdEx.sampling_rate,
       some ⟨1, 0⟩,
       some ⟨some "", some "CM6", some ⟨1, 0⟩, some "", some ⟨-1, 0⟩, some ⟨-1, 0⟩⟩⟩ :=
  claim_C10 hdEx (List.replicate 40 1) false 7 (List.replicate 80 'A') 0 0 (by decide)

/-- Claim C1 counterexample: a buffer whose first element is `-(2^26+1)`
(absolute value above `2^26`) passes the guard, and the write completes
and emits output, because the guard compares only the signed maximum. -/
theorem claim_C1_counterexample :
    ((-(2 ^ 26 + 1) : Int) ∈ dataNeg ∧ 2 ^ 26 < ((-(2 ^ 26 + 1) : Int)).natAbs) ∧
    (write hdEx dataNeg false 0 (List.replicate 80 'A') 0 0).err = none ∧
    (write hdEx dataNeg false 0 (List.replicate 80 'A') 0 0).out ≠ [] := by
  decide

/-- Claim C1 (amended): for nonempty data, `write` raises `OverflowError`
exactly when the signed maximum element exceeds `2^26` (so large negative
magnitudes pass the guard), and when the guard fires nothing has been
written and neither the header dictionary nor the module counter is
touched. -/
theorem claim_C1 (hd : HeadDict) (data : List Int) (inplace : Bool) (chksum : Int)
    (comp : List Char) (ierr : Int) (c0 : Nat) (mx : Int)
    (hmx : npMax data = some mx) :
    (((write hd data inplace chksum comp ierr c0).err =
        some (.overflowError overflowMsg)) ↔ 2 ^ 26 < mx) ∧
    (2 ^ 26 < mx → write hd data inplace chksum comp ierr c0 =
      ⟨some (.overflowError overflowMsg), [], hd, c0⟩) := by
  simp only [write, hmx]
  split_ifs <;> simp_all

/-- Claim C1 witness: a buffer holding `2^26 + 1` is rejected with
`OverflowError` and nothing is written. -/
theorem claim_C1_witness :
    write hdEx [2 ^ 26 + 1] false 0 [] 0 0 =
      ⟨some (.overflowError overflowMsg), [], hdEx, 0⟩ :=
  (claim_C1 hdEx [2 ^ 26 + 1] false 0 [] 0 0 (2 ^ 26 + 1) (by decide)).2 (by decide)

/-- Claim C7 counterexample: a WID2 line whose year column reads `XXXX`
fails with a plain `ValueError` carrying the unconvertible text; no
exception type named `HeaderFormatError` exists and the error does not
name the offending field. -/
theorem claim_C7_counterexample :
    parseWID2Line badLine.toList = .error (.valueError "XXXX") ∧
    ∀ name ∈ ["year", "month", "day", "hour", "minute", "second", "microsecond",
      "npts", "sampling_rate", "calib", "calper", "hang", "vang"],
      containsSub name.toList "XXXX".toList = false := by
  decide

/-- Claim C7 (amended): whenever some fixed-column numeric field of a WID2
line fails its conversion, header parsing fails with a `ValueError` whose
payload is the unconvertible column text (the first failing field in
conversion order), not an error type naming the field. -/
theorem claim_C7 (l : List Char) (h : hasBadNumericField l) :
    ∃ t, parseWID2Line l = .error (.valueError t) := by
  unfold parseWID2Line
  rcases h1 : pyIntO (sliceL 5 9 l) with _ | vh1
  case none => exact ⟨String.mk (sliceL 5 9 l), by simp [convAt, h1]⟩
  rcases h2 : pyIntO (sliceL 10 12 l) with _ | vh2
  case none => exact ⟨String.mk (sliceL 10 12 l), by simp [convAt, h1, h2]⟩
  rcases h3 : pyIntO (sliceL 13 15 l) with _ | vh3
  case none => exact ⟨String.mk (sliceL 13 15 l), by simp [convAt, h1, h2, h3]⟩
  rcases h4 : pyIntO (sliceL 16 18 l) with _ | vh4
  case none => exact ⟨String.mk (sliceL 16 18 l), by simp [convAt, h1, h2, h3, h4]⟩
  rcases h5 : pyIntO (sliceL 19 21 l) with _ | vh5
  case none => exact ⟨String.mk (sliceL 19 21 l), by simp [convAt, h1, h2, h3, h4, h5]⟩
  rcases h6 : pyIntO (sliceL 22 24 l) with _ | vh6
  case none => exact ⟨String.mk (sliceL 22 24 l), by simp [convAt, h1, h2, h3, h4, h5, h6]⟩
  rcases h7 : pyIntO (sliceL 25 28 l) with _ | vh7
  case none => exact ⟨String.mk (sliceL 25 28 l), by simp [convAt, h1, h2, h3, h4, h5, h6, h7]⟩
  rcases h8 : pyIntO (sliceL 48 56 l) with _ | vh8
  case none => exact ⟨String.mk (sliceL 48 56 l), by simp [convAt, h1, h2, h3, h4, h5, h6, h7, h8]⟩
  rcases h9 : pyFloatO (sliceL 57 68 l) with _ | vh9
  case none => exact ⟨String.mk (sliceL 57 68 l), by simp [convAt, h1, h2, h3, h4, h5, h6, h7, h8, h9]⟩
  rcases h10 : pyFloatO (sliceL 69 79 l) with _ | vh10
  case none => exact ⟨String.mk (sliceL 69 79 l), by simp [convAt, h1, h2, h3, h4, h5, h6, h7, h8, h9, h10]⟩
  rcases h11 : pyFloatO (sliceL 80 87 l) with _ | vh11
  case none => exact ⟨String.mk (sliceL 80 87 l), by simp [convAt, h1, h2, h3, h4, h5, h6, h7, h8, h9, h10, h11]⟩
  rcases h12 : pyFloatO (sliceL 95 100 l) with _ | vh12
  case none => exact ⟨String.mk (sliceL 95 100 l), by simp [convAt, h1, h2, h3, h4, h5, h6, h7, h8, h9, h10, h11, h12]⟩
  rcases h13 : pyFloatO (sliceL 101 105 l) with _ | vh13
  case none => exact ⟨String.mk (sliceL 101 105 l), by simp [convAt, h1, h2, h3, h4, h5, h6, h7, h8, h9, h10, h11, h12, h13]⟩
  exfalso
  unfold hasBadNumericField at h
  rcases h with h | h | h | h | h | h | h | h | h | h | h | h | h <;> simp_all

/-- Claim C7 witness: the bad-year line has a failing numeric field and
parsing it raises a `ValueError`. -/
theorem claim_C7_witness :
    hasBadNumericField badLine.toList ∧
    ∃ t, parseWID2Line badLine.toList = .error (.valueError t) :=
  ⟨by decide, claim_C7 badLine.toList (by decide)⟩

set_option maxHeartbeats 1000000 in
/-- Claim C4 (corrected): for a header whose string fields fit their
widths stripped (channel upper-case) and whose numeric fields are exactly
representable at the precision their column carries — whole milliseconds,
a sampling rate with at most six decimals below `10^4`, a calibration with
at most three significant digits and a two-digit exponent, and
calper/hang/vang at their column precision — parsing the line produced by
serializing the header reproduces every field exactly and consumes the
line. -/
theorem claim_C4 (h : Header) (hv : ValidHeader h) :
    readHeader [writeHeader h] = (.ok h, []) := by
  obtain ⟨hy0, hy9, hmo0, hmo9, hda0, hda9, hho0, hho9, hmi0, hmi9, hse0, hse9,
    hus0, hus1, hus3, hst, hch, hchU, hau, hdt, hit, hnp0, hnp9, hsrF, hsrM, hsrB,
    hcbS, hcpF, hcpLo, hcpHi, hhaF, hhaLo, hhaHi, hvaF, hvaLo, hvaHi⟩ := hv
  have hser : serializeHeader h = "WID2 ".toList ++ intPad 4 h.starttime.year ++ '/' :: z2 h.starttime.month ++ '/' :: z2 h.starttime.day ++ ' ' :: z2 h.starttime.hour ++ ':' :: z2 h.starttime.minute ++ ':' :: (padL 2 '0' (renderNat h.starttime.second.toNat) ++ '.' :: padL 3 '0' (renderNat (h.starttime.microsecond / 1000).toNat)) ++ ' ' :: padR 5 h.station.toList ++ ' ' :: padR 3 h.channel.toList ++ ' ' :: padR 4 h.auxid.toList ++ ' ' :: padR 3 h.datatype.toList ++ ' ' :: intPad 8 h.npts ++ ' ' :: fmtFixed 11 6 h.sampling_rate ++ ' ' :: fmtSci h.calib ++ ' ' :: fmtFixed 7 3 h.calper ++ ' ' :: padR 6 h.instype.toList ++ ' ' :: fmtFixed 5 1 h.hang ++ ' ' :: fmtFixed 4 1 h.vang := by
    unfold serializeHeader
    rw [secondsField_eq hse0 hse9 hus0 hus1 hus3]
  have lY : (intPad 4 h.starttime.year).length = 4 :=
    intPad_length hy0 (by norm_num) (by
      have e : ((10 : Int)) ^ 4 = 10000 := by norm_num
      omega)
  have lMO : (z2 h.starttime.month).length = 2 := z2_length hmo0 hmo9
  have lDA : (z2 h.starttime.day).length = 2 := z2_length hda0 hda9
  have lHO : (z2 h.starttime.hour).length = 2 := z2_length hho0 hho9
  have lMI : (z2 h.starttime.minute).length = 2 := z2_length hmi0 hmi9
  have lS2 : (padL 2 '0' (renderNat h.starttime.second.toNat)).length = 2 :=
    padL_zero_length (by norm_num) (by
      have e : ((10 : Nat)) ^ 2 = 100 := by norm_num
      omega)
  have lS3 : (padL 3 '0' (renderNat (h.starttime.microsecond / 1000).toNat)).length = 3 :=
    padL_zero_length (by norm_num) (by
      have e : ((10 : Nat)) ^ 3 = 1000 := by norm_num
      omega)
  have lST : (padR 5 h.station.toList).length = 5 := strOK_padR_length hst
  have lCH : (padR 3 h.channel.toList).length = 3 := strOK_padR_length hch
  have lAU : (padR 4 h.auxid.toList).length = 4 := strOK_padR_length hau
  have lDT : (padR 3 h.datatype.toList).length = 3 := strOK_padR_length hdt
  have lIT : (padR 6 h.instype.toList).length = 6 := strOK_padR_length hit
  have lNP : (intPad 8 h.npts).length = 8 :=
    intPad_length hnp0 (by norm_num) (by
      have e : ((10 : Int)) ^ 8 = 100000000 := by norm_num
      omega)
  have lSR : (fmtFixed 11 6 h.sampling_rate).length = 11 :=
    @fmtFixed_length h.sampling_rate 11 6 4 3 hsrF.2 (by norm_num) (by norm_num) (by norm_num)
      (by norm_num) (by norm_num)
      (by
        have h0 := @scaled_nonneg h.sampling_rate 6 hsrM
        have e : ((10 : Int)) ^ (3 + 6) = 1000000000 := by norm_num
        omega)
      (by
        have e : ((10 : Int)) ^ (4 + 6) = 10 ^ 10 := by norm_num
        rw [e]
        exact hsrB)
  have lCB : (fmtSci h.calib).length = 10 := fmtSci_length hcbS
  have lCP : (fmtFixed 7 3 h.calper).length = 7 :=
    @fmtFixed_length h.calper 7 3 3 2 hcpF.2 (by norm_num) (by norm_num) (by norm_num)
      (by norm_num) (by norm_num)
      (by
        have e : ((10 : Int)) ^ (2 + 3) = 10 ^ 5 := by norm_num
        rw [e]
        exact hcpLo)
      (by
        have e : ((10 : Int)) ^ (3 + 3) = 10 ^ 6 := by norm_num
        rw [e]
        exact hcpHi)
  have lHA : (fmtFixed 5 1 h.hang).length = 5 :=
    @fmtFixed_length h.hang 5 1 3 2 hhaF.2 (by norm_num) (by norm_num) (by norm_num)
      (by norm_num) (by norm_num)
      (by
        have e : ((10 : Int)) ^ (2 + 1) = 10 ^ 3 := by norm_num
        rw [e]
        exact hhaLo)
      (by
        have e : ((10 : Int)) ^ (3 + 1) = 10 ^ 4 := by norm_num
        rw [e]
        exact hhaHi)
  have lVA : (fmtFixed 4 1 h.vang).length = 4 :=
    @fmtFixed_length h.vang 4 1 2 1 hvaF.2 (by norm_num) (by norm_num) (by norm_num)
      (by norm_num) (by norm_num)
      (by
        have e : ((10 : Int)) ^ (1 + 1) = 10 ^ 2 := by norm_num
        rw [e]
        exact hvaLo)
      (by
        have e : ((10 : Int)) ^ (2 + 1) = 10 ^ 3 := by norm_num
        rw [e]
        exact hvaHi)
  have e1 : sliceL 5 9 (serializeHeader h) = intPad 4 h.starttime.year := by
    rw [hser]
    exact wid2_slice_year lY lMO lDA lHO lMI lS2 lS3 lST lCH lAU lDT lNP lSR lCB lCP lIT lHA lVA
  have e2 : sliceL 10 12 (serializeHeader h) = z2 h.starttime.month := by
    rw [hser]
    exact wid2_slice_month lY lMO lDA lHO lMI lS2 lS3 lST lCH lAU lDT lNP lSR lCB lCP lIT lHA lVA
  have e3 : sliceL 13 15 (serializeHeader h) = z2 h.starttime.day := by
    rw [hser]
    exact wid2_slice_day lY lMO lDA lHO lMI lS2 lS3 lST lCH lAU lDT lNP lSR lCB lCP lIT lHA lVA
  have e4 : sliceL 16 18 (serializeHeader h) = z2 h.starttime.hour := by
    rw [hser]
    exact wid2_slice_hour lY lMO lDA lHO lMI lS2 lS3 lST lCH lAU lDT lNP lSR lCB lCP lIT lHA lVA
  have e5 : sliceL 19 21 (serializeHeader h) = z2 h.starttime.minute := by
    rw [hser]
    exact wid2_slice_minute lY lMO lDA lHO lMI lS2 lS3 lST lCH lAU lDT lNP lSR lCB lCP lIT lHA lVA
  have e6 : sliceL 22 24 (serializeHeader h) = padL 2 '0' (renderNat h.starttime.second.toNat) := by
    rw [hser]
    exact wid2_slice_second lY lMO lDA lHO lMI lS2 lS3 lST lCH lAU lDT lNP lSR lCB lCP lIT lHA lVA
  have e7 : sliceL 25 28 (serializeHeader h) = padL 3 '0' (renderNat (h.starttime.microsecond / 1000).toNat) := by
    rw [hser]
    exact wid2_slice_msec lY lMO lDA lHO lMI lS2 lS3 lST lCH lAU lDT lNP lSR lCB lCP lIT lHA lVA
  have eST : sliceL 29 34 (serializeHeader h) = padR 5 h.station.toList := by
    rw [hser]
    exact wid2_slice_station lY lMO lDA lHO lMI lS2 lS3 lST lCH lAU lDT lNP lSR lCB lCP lIT lHA lVA
  have eCH : sliceL 35 38 (serializeHeader h) = padR 3 h.channel.toList := by
    rw [hser]
    exact wid2_slice_channel lY lMO lDA lHO lMI lS2 lS3 lST lCH lAU lDT lNP lSR lCB lCP lIT lHA lVA
  have eAU : sliceL 39 43 (serializeHeader h) = padR 4 h.auxid.toList := by
    rw [hser]
    exact wid2_slice_auxid lY lMO lDA lHO lMI lS2 lS3 lST lCH lAU lDT lNP lSR lCB lCP lIT lHA lVA
  have eDT : sliceL 44 48 (serializeHeader h) = padR 3 h.datatype.toList ++ [' '] := by
    rw [hser]
    exact wid2_slice_datatype lY lMO lDA lHO lMI lS2 lS3 lST lCH lAU lDT lNP lSR lCB lCP lIT lHA lVA
  have e8 : sliceL 48 56 (serializeHeader h) = intPad 8 h.npts := by
    rw [hser]
    exact wid2_slice_npts lY lMO lDA lHO lMI lS2 lS3 lST lCH lAU lDT lNP lSR lCB lCP lIT lHA lVA
  have e9 : sliceL 57 68 (serializeHeader h) = fmtFixed 11 6 h.sampling_rate := by
    rw [hser]
    exact wid2_slice_sr lY lMO lDA lHO lMI lS2 lS3 lST lCH lAU lDT lNP lSR lCB lCP lIT lHA lVA
  have e10 : sliceL 69 79 (serializeHeader h) = fmtSci h.calib := by
    rw [hser]
    exact wid2_slice_calib lY lMO lDA lHO lMI lS2 lS3 lST lCH lAU lDT lNP lSR lCB lCP lIT lHA lVA
  have e11 : sliceL 80 87 (serializeHeader h) = fmtFixed 7 3 h.calper := by
    rw [hser]
    exact wid2_slice_calper lY lMO lDA lHO lMI lS2 lS3 lST lCH lAU lDT lNP lSR lCB lCP lIT lHA lVA
  have eIT : sliceL 88 94 (serializeHeader h) = padR 6 h.instype.toList := by
    rw [hser]
    exact wid2_slice_instype lY lMO lDA lHO lMI lS2 lS3 lST lCH lAU lDT lNP lSR lCB lCP lIT lHA lVA
  have e12 : sliceL 95 100 (serializeHeader h) = fmtFixed 5 1 h.hang := by
    rw [hser]
    exact wid2_slice_hang lY lMO lDA lHO lMI lS2 lS3 lST lCH lAU lDT lNP lSR lCB lCP lIT lHA lVA
  have e13 : sliceL 101 105 (serializeHeader h) = fmtFixed 4 1 h.vang := by
    rw [hser]
    exact wid2_slice_vang lY lMO lDA lHO lMI lS2 lS3 lST lCH lAU lDT lNP lSR lCB lCP lIT lHA lVA
  have c1 : pyIntO (intPad 4 h.starttime.year) = some h.starttime.year :=
    pyIntO_padL_space_renderInt 4 h.starttime.year
  have c2 : pyIntO (z2 h.starttime.month) = some h.starttime.month := pyIntO_z2 hmo0
  have c3 : pyIntO (z2 h.starttime.day) = some h.starttime.day := pyIntO_z2 hda0
  have c4 : pyIntO (z2 h.starttime.hour) = some h.starttime.hour := pyIntO_z2 hho0
  have c5 : pyIntO (z2 h.starttime.minute) = some h.starttime.minute := pyIntO_z2 hmi0
  have c6 : pyIntO (padL 2 '0' (renderNat h.starttime.second.toNat)) =
      some h.starttime.second := by
    rw [pyIntO_padL_zero, Int.toNat_of_nonneg hse0]
  have c7 : pyIntO (padL 3 '0' (renderNat (h.starttime.microsecond / 1000).toNat)) =
      some (h.starttime.microsecond / 1000) := by
    rw [pyIntO_padL_zero,
      Int.toNat_of_nonneg (show (0 : Int) ≤ h.starttime.microsecond / 1000 from by omega)]
  have c8 : pyIntO (intPad 8 h.npts) = some h.npts := pyIntO_padL_space_renderInt 8 h.npts
  have c9 : pyFloatO (fmtFixed 11 6 h.sampling_rate) = some h.sampling_rate :=
    pyFloatO_fmtFixed hsrF.1 hsrF.2 (by norm_num)
  have c10 : pyFloatO (fmtSci h.calib) = some h.calib := pyFloatO_fmtSci hcbS
  have c11 : pyFloatO (fmtFixed 7 3 h.calper) = some h.calper :=
    pyFloatO_fmtFixed hcpF.1 hcpF.2 (by norm_num)
  have c12 : pyFloatO (fmtFixed 5 1 h.hang) = some h.hang :=
    pyFloatO_fmtFixed hhaF.1 hhaF.2 (by norm_num)
  have c13 : pyFloatO (fmtFixed 4 1 h.vang) = some h.vang :=
    pyFloatO_fmtFixed hvaF.1 hvaF.2 (by norm_num)
  have sST : String.mk (pyStrip (padR 5 h.station.toList)) = h.station := by
    rw [pyStrip_padR 5 hst.2]
    rfl
  have sCH : String.mk ((pyStrip (padR 3 h.channel.toList)).map Char.toUpper) = h.channel := by
    rw [pyStrip_padR 3 hch.2,
      show h.channel.toList.map Char.toUpper = h.channel.toList from hchU]
    rfl
  have sAU : String.mk (pyStrip (padR 4 h.auxid.toList)) = h.auxid := by
    rw [pyStrip_padR 4 hau.2]
    rfl
  have sDT : String.mk (pyStrip (padR 3 h.datatype.toList ++ [' '])) = h.datatype := by
    rw [padR_snoc_space hdt.1, pyStrip_padR 4 hdt.2]
    rfl
  have sIT : String.mk (pyStrip (padR 6 h.instype.toList)) = h.instype := by
    rw [pyStrip_padR 6 hit.2]
    rfl
  have hmic : 1000 * (h.starttime.microsecond / 1000) = h.starttime.microsecond := by
    omega
  have hparse : parseWID2Line (serializeHeader h) = .ok h := by
    unfold parseWID2Line
    simp only [convAt, e1, c1, e2, c2, e3, c3, e4, c4, e5, c5, e6, c6, e7, c7, e8, c8,
      e9, c9, e10, c10, e11, c11, e12, c12, e13, c13, eST, eCH, eAU, eDT, eIT,
      sST, sCH, sAU, sDT, sIT, hmic]
  have hsw : startsWithL "WID2".toList (serializeHeader h) = true := by
    unfold serializeHeader startsWithL
    rfl
  unfold writeHeader
  simp only [readHeader, toList_mk]
  rw [if_pos hsw, hparse]

/-- Claim C4 witness: the example header is valid and round-trips through
`writeHeader` and `readHeader` exactly. -/
theorem claim_C4_witness :
    ValidHeader hdrEx ∧ readHeader [writeHeader hdrEx] = (.ok hdrEx, []) :=
  ⟨by decide, claim_C4 hdrEx (by decide)⟩

/-- Claim C4 counterexample: `hdrMicro` differs from the example header
only in its microseconds (255400, not a whole millisecond); every string
field fits its width and the serialized line has the full 105 columns, yet
the round trip silently returns 255000 microseconds instead — the
unqualified claim "parsing the serialized line reproduces every field for
every valid header" fails. -/
theorem claim_C4_counterexample :
    (0 ≤ hdrMicro.starttime.microsecond ∧ hdrMicro.starttime.microsecond < 1000000 ∧
      strOK hdrMicro.station 5 ∧ strOK hdrMicro.channel 3 ∧ strOK hdrMicro.auxid 4 ∧
      strOK hdrMicro.datatype 3 ∧ strOK hdrMicro.instype 6 ∧
      (serializeHeader hdrMicro).length = 105) ∧
    readHeader [writeHeader hdrMicro] ≠ (.ok hdrMicro, []) ∧
    readHeader [writeHeader hdrMicro] =
      (.ok ⟨⟨2009, 5, 18, 6, 47, 20, 255000⟩, "RNHA", "EHN", "", "CM6", 750,
        ⟨2, -2⟩, ⟨949, 4⟩, ⟨1, 0⟩, "M24", ⟨-1, 0⟩, ⟨0, 0⟩⟩, []) := by
  decide

end Gse2
